import Mathlib

/-!
Shallow embedding of the `delfino` toolbox (files `src/toolbox/commands/lint.py`
and `src/toolbox/commands/test.py`).

The orchestrator only sequences external commands, redirects their output into
report files, reads those files back, and prints messages.  We model:
  * the file system as an association list from paths to contents (`FS`);
  * everything printed to the terminal, and every external command started,
    as an `Event` trace;
  * the behaviour of the external world (exit codes of commands and what a
    shell redirection materialises into the report file) as an environment
    (`RunEnv` for the lint commands, `CoverageEnv` for the coverage tool);
  * a Python exception escaping a command as an `Option`/`Except` value.
Each Python function of the two source files becomes a Lean function of the
same name, translated statement by statement.
-/

namespace Delfino

/-- A file system: a finite map from path to contents, as an association
list (later bindings shadow earlier ones). -/
structure FS where
  files : List (String × String)
deriving DecidableEq, Repr

/-- First binding of a path in an association list. -/
def lookupFirst : List (String × String) → String → Option String
  | [], _ => none
  | x :: l, p => if x.1 = p then some x.2 else lookupFirst l p

/-- Contents of a file, when present. -/
def FS.read? (fs : FS) (p : String) : Option String :=
  lookupFirst fs.files p

/-- `os.path.exists` / `Path.exists`. -/
def FS.existsFile (fs : FS) (p : String) : Bool :=
  (fs.read? p).isSome

/-- Create or overwrite a file. -/
def FS.write (fs : FS) (p s : String) : FS :=
  ⟨(p, s) :: fs.files.filter (fun q => q.1 ≠ p)⟩

/-- Delete a file (used for the destructive `coverage combine`). -/
def FS.eraseFile (fs : FS) (p : String) : FS :=
  ⟨fs.files.filter (fun q => q.1 ≠ p)⟩

/-- `toolbox.utils.read_contents` (its callers only use it on files that
exist; on a missing file the model returns `""`). -/
def read_contents (fs : FS) (p : String) : String :=
  (fs.read? p).getD ""

/-- Observable actions: terminal output and external-command starts.
`header` is `print_header`, `printed` a plain `print`, `formatted` the
output of `format_messages`, `successMark` the green check mark printed by
`cprint`, `warn`/`guidance` are `click.secho` in yellow/red, `openBrowser`
is `webbrowser.open`, and `run` records that an external command was
started via `ctx.run`. -/
inductive Event
  | header (title : String) (level : Nat)
  | run (cmd : String)
  | printed (s : String)
  | formatted (s : String)
  | successMark
  | warn (s : String)
  | guidance (s : String)
  | openBrowser (url : String)
deriving DecidableEq, Repr

/-- The command strings started during a trace, in order. -/
def runCmds (evs : List Event) : List String :=
  evs.filterMap (fun e => match e with | Event.run c => some c | _ => none)

/-- `pathlib`'s `/` operator. -/
def pathJoin (d n : String) : String :=
  d ++ "/" ++ n

/-- The `[tool.toolbox.project]` configuration consumed by `lint.py`
(`app_context.py_project_toml.project`). -/
structure Project where
  source_directory : String
  tests_directory : String
  reports_directory : String
  root_directory : String

/-- External-world behaviour for `ctx.run` as used by `lint.py`: each
command string has an exit status, and the shell redirection `> report`
materialises the file with the given contents (`none`: the file was not
created, e.g. the process could not be spawned). -/
structure RunEnv where
  exitCode : String → Nat
  fileOutput : String → Option String

/-- One `ctx.run(f"... > report")`: the redirected file is written (when the
shell produced it), and the exit status is returned.  A non-zero status is
what `invoke` turns into an exception. -/
def runRedirect (env : RunEnv) (fs : FS) (cmd reportPath : String) : FS × Nat :=
  let fs' := match env.fileOutput cmd with
    | some out => fs.write reportPath out
    | none => fs
  (fs', env.exitCode cmd)

/-- The typed failure escaping a check (the `UnexpectedExit` raised by
`invoke` and re-raised by the check). -/
structure CheckFailed where
  cmd : String
  exitCode : Nat
deriving DecidableEq, Repr

/-! ## `lint.py` -/

/-- The `pydocstyle` command line of `lint_pydocstyle`. -/
def pydocstyleCmd (source_directory reportPath : String) : String :=
  "pydocstyle " ++ source_directory ++ " > " ++ reportPath

/-- `lint_pydocstyle`: run pydocstyle redirected into
`pydocstyle-report.log`; the `finally` block formats and prints the report
contents whenever the file exists, on success and failure alike; a non-zero
exit propagates afterwards. -/
def lint_pydocstyle (env : RunEnv) (fs : FS) (project : Project) :
    FS × List Event × Option CheckFailed :=
  let report_pydocstyle_fpath := pathJoin project.reports_directory "pydocstyle-report.log"
  let cmd := pydocstyleCmd project.source_directory report_pydocstyle_fpath
  let res := runRedirect env fs cmd report_pydocstyle_fpath
  let dump := if res.1.existsFile report_pydocstyle_fpath then
    [Event.formatted (read_contents res.1 report_pydocstyle_fpath)] else []
  (res.1, [Event.header "documentation style" 2, Event.run cmd] ++ dump,
   if res.2 = 0 then none else some ⟨cmd, res.2⟩)

/-- The `pycodestyle` command line of `lint_pycodestyle`. -/
def pycodestyleCmd (dirs reportPath : String) : String :=
  "pycodestyle --ignore=E501,W503,E231,E203,E402 " ++
    "--exclude=.svn,CVS,.bzr,.hg,.git,__pycache__,.tox,*_config" ++
    "_parser.py " ++ dirs ++ " > " ++ reportPath

/-- `lint_pycodestyle`: same `try`/`finally` shape as `lint_pydocstyle`,
over both the source and the tests directory. -/
def lint_pycodestyle (env : RunEnv) (fs : FS) (project : Project) :
    FS × List Event × Option CheckFailed :=
  let dirs := project.source_directory ++ " " ++ project.tests_directory
  let report_pycodestyle_fpath := pathJoin project.reports_directory "pycodestyle-report.log"
  let cmd := pycodestyleCmd dirs report_pycodestyle_fpath
  let res := runRedirect env fs cmd report_pycodestyle_fpath
  let dump := if res.1.existsFile report_pycodestyle_fpath then
    [Event.formatted (read_contents res.1 report_pycodestyle_fpath)] else []
  (res.1, [Event.header "code style (PEP8)" 2, Event.run cmd] ++ dump,
   if res.2 = 0 then none else some ⟨cmd, res.2⟩)

/-- The `pylint` command line of `run_pylint`. -/
def pylintCmd (pylintrc_fpath : String) (source_dirs : List String) (report_path : String) :
    String :=
  "pylint --rcfile " ++ pylintrc_fpath ++ " " ++ String.intercalate " " source_dirs ++
    " > " ++ report_path

/-- `run_pylint`: on a zero exit print the green check mark; on a non-zero
exit print the report contents (only if the file exists) and re-raise. -/
def run_pylint (env : RunEnv) (fs : FS) (source_dirs : List String)
    (report_path pylintrc_fpath : String) : FS × List Event × Option CheckFailed :=
  let cmd := pylintCmd pylintrc_fpath source_dirs report_path
  let res := runRedirect env fs cmd report_path
  if res.2 = 0 then
    (res.1, [Event.header (String.intercalate ", " source_dirs) 3, Event.run cmd,
      Event.successMark], none)
  else
    (res.1, [Event.header (String.intercalate ", " source_dirs) 3, Event.run cmd] ++
      (if res.1.existsFile report_path then [Event.printed (read_contents res.1 report_path)]
       else []),
     some ⟨cmd, res.2⟩)

/-- `lint_pylint`: two `run_pylint` sub-runs, the source tree against the
root `.pylintrc` first, then the tests tree against the tests `.pylintrc`;
the second runs only if the first did not raise. -/
def lint_pylint (env : RunEnv) (fs : FS) (project : Project) :
    FS × List Event × Option CheckFailed :=
  let r1 := run_pylint env fs [project.source_directory]
    (pathJoin project.reports_directory "pylint-report.log")
    (pathJoin project.root_directory ".pylintrc")
  match r1.2.2 with
  | some e => (r1.1, Event.header "pylint" 2 :: r1.2.1, some e)
  | none =>
    let r2 := run_pylint env r1.1 [project.tests_directory]
      (pathJoin project.reports_directory "pylint-report-tests.log")
      (pathJoin project.tests_directory ".pylintrc")
    (r2.1, Event.header "pylint" 2 :: r1.2.1 ++ r2.2.1, r2.2.2)

/-- `lint`: `click_context.forward` over `_COMMANDS = [lint_pylint,
lint_pycodestyle, lint_pydocstyle]` in order; an exception escaping one
forwarded command aborts the loop. -/
def lint (env : RunEnv) (fs : FS) (project : Project) :
    FS × List Event × Option CheckFailed :=
  let r1 := lint_pylint env fs project
  match r1.2.2 with
  | some e => (r1.1, Event.header "Linting" 1 :: r1.2.1, some e)
  | none =>
    let r2 := lint_pycodestyle env r1.1 project
    match r2.2.2 with
    | some e => (r2.1, Event.header "Linting" 1 :: r1.2.1 ++ r2.2.1, some e)
    | none =>
      let r3 := lint_pydocstyle env r2.1 project
      (r3.1, Event.header "Linting" 1 :: r1.2.1 ++ r2.2.1 ++ r3.2.1, r3.2.2)

/-- The full command line of the first pylint sub-run, for a given project. -/
def pylintSrcCmd (project : Project) : String :=
  pylintCmd (pathJoin project.root_directory ".pylintrc") [project.source_directory]
    (pathJoin project.reports_directory "pylint-report.log")

/-- The full command line of the second pylint sub-run. -/
def pylintTestsCmd (project : Project) : String :=
  pylintCmd (pathJoin project.tests_directory ".pylintrc") [project.tests_directory]
    (pathJoin project.reports_directory "pylint-report-tests.log")

/-- The full pycodestyle command line. -/
def pycodestyleFullCmd (project : Project) : String :=
  pycodestyleCmd (project.source_directory ++ " " ++ project.tests_directory)
    (pathJoin project.reports_directory "pycodestyle-report.log")

/-- The full pydocstyle command line. -/
def pydocstyleFullCmd (project : Project) : String :=
  pydocstyleCmd project.source_directory (pathJoin project.reports_directory "pydocstyle-report.log")

/-! ## `test.py` -/

/-- The `[tool.toolbox]` configuration consumed by `test.py`
(`app_context.py_project_toml.tool.toolbox`). -/
structure Toolbox where
  sources_directory : String
  tests_directory : String
  reports_directory : String
  test_types : List String

/-- If `pat` is a literal head of `s`, the remainder of `s` after it. -/
def dropMatch : List Char → List Char → Option (List Char)
  | [], s => some s
  | _ :: _, [] => none
  | p :: ps, c :: cs => if c = p then dropMatch ps cs else none

/-- Python's `str.replace` on character lists: scan left to right, replace
every non-overlapping occurrence of `pat`, continue after the replaced
text.  `fuel` bounds the recursion; started at the length of the string it
is never exhausted for a non-empty `pat`. -/
def replaceCharsAux (pat repl : List Char) : Nat → List Char → List Char
  | _, [] => []
  | 0, s => s
  | fuel + 1, c :: rest =>
    match dropMatch pat (c :: rest) with
    | some remaining => repl ++ replaceCharsAux pat repl fuel remaining
    | none => c :: replaceCharsAux pat repl fuel rest

/-- Python's `str.replace` (all occurrences). -/
def stringReplace (s pat repl : String) : String :=
  String.mk (replaceCharsAux pat.toList repl.toList s.toList.length s.toList)

/-- `f"coverage-{test_type}.dat"`, the name of a per-category coverage
artifact. -/
def datName (test_type : String) : String :=
  "coverage-" ++ test_type ++ ".dat"

/-- `coverage_dat.name.replace(".dat", "-copy.dat")`, the name of the
temporary copy taken before `coverage combine`. -/
def copyName (test_type : String) : String :=
  stringReplace (datName test_type) ".dat" "-copy.dat"

/-- Full path of a category's coverage artifact in the reports directory. -/
def datPath (reports_directory test_type : String) : String :=
  pathJoin reports_directory (datName test_type)

/-- Full path of a category's temporary copy. -/
def copyPath (reports_directory test_type : String) : String :=
  pathJoin reports_directory (copyName test_type)

/-- Path of the combined coverage data file. -/
def combinedPath (reports_directory : String) : String :=
  pathJoin reports_directory "coverage.dat"

/-- Path of the browsable report's index file. -/
def htmlIndexPath (reports_directory : String) : String :=
  pathJoin (pathJoin reports_directory "coverage-report") "index.html"

/-- External-world behaviour of the coverage tool: `reportOutput` is the
stdout of `coverage report` run with `COVERAGE_FILE` pointing at a data
file with the given contents; `combine` is the combined data written by
`coverage combine` from the given input files' contents; `htmlReport` is
the rendered `index.html` for given combined data. -/
structure CoverageEnv where
  reportOutput : String → String
  combine : List String → String
  htmlReport : String → String

/-- `c.isDigit || c = '.'`: the characters of the regex class `[\d.]`. -/
def isDigitDot (c : Char) : Bool :=
  c.isDigit || c = '.'

/-- One attempt of the regex tail `([\d.]+%)` at the current position:
the greedy run of `[\d.]` characters must be non-empty and be followed
immediately by `%` (backtracking inside the run cannot help, because a run
character is never `%`). -/
def matchPercentAt (cs : List Char) : Option String :=
  if (cs.takeWhile isDigitDot).isEmpty then none
  else if (cs.dropWhile isDigitDot).head? = some '%' then
    some (String.mk (cs.takeWhile isDigitDot ++ ['%']))
  else none

/-- The non-greedy `.*?([\d.]+%)` after `TOTAL`: try the percentage token
at each successive position; `.` does not match a newline, so the scan
stops at the end of the line. -/
def scanPercent : List Char → Option String
  | [] => none
  | c :: rest =>
    match matchPercentAt (c :: rest) with
    | some g => some g
    | none => if c = '\n' then none else scanPercent rest

/-- The characters of the literal `TOTAL`. -/
def totalToken : List Char :=
  ['T', 'O', 'T', 'A', 'L']

/-- Whether the literal `TOTAL` starts here. -/
def startsWithTOTAL : List Char → Bool
  | c1 :: c2 :: c3 :: c4 :: c5 :: _ =>
    decide (c1 = 'T') && decide (c2 = 'O') && decide (c3 = 'T') &&
      decide (c4 = 'A') && decide (c5 = 'L')
  | _ => false

/-- `re.search(r"TOTAL.*?([\d.]+%)", output)`: the leftmost starting
position wins; a `TOTAL` whose line has no percentage token is passed
over and the search resumes one character further. -/
def searchTOTAL : List Char → Option String
  | [] => none
  | c :: rest =>
    if startsWithTOTAL (c :: rest) then
      match scanPercent ((c :: rest).drop 5) with
      | some g => some g
      | none => searchTOTAL rest
    else searchTOTAL rest

/-- `_get_total_coverage`: run `coverage report` against the dat file and
extract the `TOTAL` percentage; raise `RuntimeError` when the regex fails. -/
def _get_total_coverage (env : CoverageEnv) (fs : FS) (coverage_dat : String) :
    Except String String :=
  let output := env.reportOutput (read_contents fs coverage_dat)
  match searchTOTAL output.toList with
  | none => Except.error ("Regex failed on output: " ++ output)
  | some pct => Except.ok pct

/-- The warning printed for a category with no coverage data file. -/
def missingDatMsg (test_type coverage_dat : String) : String :=
  "Could not find coverage dat file for " ++ test_type ++ " tests: " ++ coverage_dat

/-- The per-category message printed by `coverage_report`. -/
def categoryCoverageMsg (test_type pct : String) : String :=
  test_type.capitalize ++ " test coverage: " ++ pct

/-- The `for test_type in toolbox.test_types` loop of `coverage_report`:
warn and skip when the dat file is absent; otherwise print the category's
percentage (a `RuntimeError` from the extraction aborts the whole command),
copy the artifact to its `-copy.dat` twin and record the copy's path. -/
def coverageLoop (env : CoverageEnv) (reports_directory : String) :
    List String → FS → List Event → List String →
    Except (FS × List Event × String) (FS × List Event × List String)
  | [], fs, evs, coverage_files => Except.ok (fs, evs, coverage_files)
  | test_type :: rest, fs, evs, coverage_files =>
    let coverage_dat := datPath reports_directory test_type
    if fs.existsFile coverage_dat then
      match _get_total_coverage env fs coverage_dat with
      | Except.error msg => Except.error (fs, evs, msg)
      | Except.ok pct =>
        let temp_copy := copyPath reports_directory test_type
        let fs' := fs.write temp_copy (read_contents fs coverage_dat)
        coverageLoop env reports_directory rest fs'
          (evs ++ [Event.printed (categoryCoverageMsg test_type pct)])
          (coverage_files ++ [temp_copy])
    else
      coverageLoop env reports_directory rest fs
        (evs ++ [Event.warn (missingDatMsg test_type coverage_dat)]) coverage_files

/-- The shell command combining the copies and rendering the HTML report. -/
def combineCmd (coverage_dat_combined coverage_html : String)
    (coverage_files : List String) : String :=
  "export COVERAGE_FILE=" ++ coverage_dat_combined ++ "; coverage combine " ++
    String.intercalate " " coverage_files ++ "; coverage html -d " ++ coverage_html

/-- The closing message of `coverage_report`. -/
def referMsg (coverage_html : String) : String :=
  "Refer to coverage report for full analysis in " ++ coverage_html ++
    "/index.html, or open the report in your default browser with: pipenv run inv coverage-open"

/-- The tail of `coverage_report` after the per-category loop: one shell
command combines the temporary copies into `coverage.dat` (erasing its
inputs, the copies) and renders the HTML report; then the combined
percentage is extracted from the combined file and printed.  A
`RuntimeError` from the extraction escapes as the error component. -/
def coverageCombineStep (env : CoverageEnv) (r : String)
    (res : FS × List Event × List String) : FS × List Event × Option String :=
  let fs1 := res.1
  let evs := res.2.1
  let coverage_files := res.2.2
  let coverage_dat_combined := combinedPath r
  let coverage_html := pathJoin r "coverage-report"
  let combined := env.combine (coverage_files.map (read_contents fs1))
  let fs2 := (coverage_files.foldl FS.eraseFile fs1).write coverage_dat_combined combined
  let fs3 := fs2.write (pathJoin coverage_html "index.html") (env.htmlReport combined)
  let evs2 := evs ++ [Event.run (combineCmd coverage_dat_combined coverage_html coverage_files)]
  match _get_total_coverage env fs3 coverage_dat_combined with
  | Except.error msg => (fs3, evs2, some msg)
  | Except.ok pct =>
    (fs3, evs2 ++ [Event.printed ("Total coverage: " ++ pct),
      Event.printed (referMsg coverage_html)], none)

/-- `coverage_report`: per-category loop, then the combine step. -/
def coverage_report (env : CoverageEnv) (fs : FS) (toolbox : Toolbox) :
    FS × List Event × Option String :=
  match coverageLoop env toolbox.reports_directory toolbox.test_types fs
      [Event.header "Generating coverage report" 1] [] with
  | Except.error e => (e.1, e.2.1, some e.2.2)
  | Except.ok res => coverageCombineStep env toolbox.reports_directory res

/-- `coverage_open`: with no `coverage-report/index.html`, print the red
guidance message and raise `Exit(code=1)`; otherwise open the browser on
the report.  The second component is the raised exit code, `none` when the
command returns normally. -/
def coverage_open (fs : FS) (toolbox : Toolbox) : List Event × Option Nat :=
  let report_index := htmlIndexPath toolbox.reports_directory
  if fs.existsFile report_index then
    ([Event.openBrowser ("file:///" ++ report_index)], none)
  else
    ([Event.guidance ("Could not find coverage report " ++ report_index ++
      ". Ensure that the report has been built. Try one of the following: " ++
      "pipenv run inv coverage-report, or pipenv run inv test-all")], some 1)

/-! ## Specification-side definitions

These definitions render sentences of the claims in Lean, to be compared
with the embedded code above. -/

/-- The declarative reading of the extraction's success condition: the
output contains `TOTAL` followed, later on the same line, by a non-empty
`[\d.]` run ending in `%`. -/
def hasTotalPercent (cs : List Char) : Prop :=
  ∃ pre mid run post, cs = pre ++ totalToken ++ mid ++ run ++ '%' :: post ∧
    '\n' ∉ mid ∧ run ≠ [] ∧ ∀ c ∈ run, isDigitDot c = true

/-- Modelled from the claim C10 as stated: the percentage is sought only on
the line of the first occurrence of `TOTAL`; if that line has no
percentage token the extraction yields nothing. -/
def firstTotalScan : List Char → Option String
  | [] => none
  | c :: rest =>
    if startsWithTOTAL (c :: rest) then scanPercent ((c :: rest).drop 5)
    else firstTotalScan rest

/-- The percentage-token match attempted at position `i`: `TOTAL` must
start there and a token must follow on the same line. -/
def totalMatchAt (cs : List Char) (i : Nat) : Option String :=
  if startsWithTOTAL (cs.drop i) then scanPercent (cs.drop (i + 5)) else none

/-- Modelled from the claim C10 as amended: the result comes from the
earliest position at which `TOTAL` starts and a percentage token follows
on the same line. -/
def leftmostTotal (cs : List Char) : Option String :=
  ((List.range cs.length).filterMap (totalMatchAt cs)).head?

/-- The commands the lint pipeline actually starts: it stops right after
the first tool invocation that exits non-zero. -/
def lintFailFastCmds (env : RunEnv) (project : Project) : List String :=
  if env.exitCode (pylintSrcCmd project) ≠ 0 then [pylintSrcCmd project]
  else if env.exitCode (pylintTestsCmd project) ≠ 0 then
    [pylintSrcCmd project, pylintTestsCmd project]
  else if env.exitCode (pycodestyleFullCmd project) ≠ 0 then
    [pylintSrcCmd project, pylintTestsCmd project, pycodestyleFullCmd project]
  else
    [pylintSrcCmd project, pylintTestsCmd project, pycodestyleFullCmd project,
      pydocstyleFullCmd project]

/-- The four report files the lint pipeline writes, in write order. -/
def lintReportPaths (project : Project) : List String :=
  [pathJoin project.reports_directory "pylint-report.log",
   pathJoin project.reports_directory "pylint-report-tests.log",
   pathJoin project.reports_directory "pycodestyle-report.log",
   pathJoin project.reports_directory "pydocstyle-report.log"]

/-- The categories of `test_types` whose coverage artifact exists. -/
def presentTypes (fs : FS) (reports_directory : String) (test_types : List String) :
    List String :=
  test_types.filter (fun t => fs.existsFile (datPath reports_directory t))

/-- The event the per-category loop emits for one category: the category
percentage when the artifact exists, the warning otherwise. -/
def categoryEvent (env : CoverageEnv) (fs : FS) (reports_directory test_type : String) :
    Event :=
  if fs.existsFile (datPath reports_directory test_type) then
    Event.printed (categoryCoverageMsg test_type
      ((searchTOTAL (env.reportOutput
        (read_contents fs (datPath reports_directory test_type))).toList).getD ""))
  else Event.warn (missingDatMsg test_type (datPath reports_directory test_type))

/-- The combined data the aggregation produces: the merge of the present
categories' artifact contents. -/
def combinedOf (env : CoverageEnv) (fs : FS) (toolbox : Toolbox) : String :=
  env.combine ((presentTypes fs toolbox.reports_directory toolbox.test_types).map
    (fun t => read_contents fs (datPath toolbox.reports_directory t)))

/-- Path-hygiene of the category names: no temporary copy aliases a
per-category artifact, and distinct categories have distinct copies.
Ordinary category names such as `unit` and `integration` satisfy this. -/
def copiesDisjoint (r : String) (ts : List String) : Prop :=
  (∀ t ∈ ts, ∀ t2 ∈ ts, copyPath r t ≠ datPath r t2) ∧
  (∀ t ∈ ts, ∀ t2 ∈ ts, t ≠ t2 → copyPath r t ≠ copyPath r t2)

/-- Every present category's report output parses (has a TOTAL row). -/
def allPresentParse (env : CoverageEnv) (fs : FS) (r : String) (ts : List String) : Prop :=
  ∀ t ∈ ts, fs.existsFile (datPath r t) = true →
    (searchTOTAL (env.reportOutput (read_contents fs (datPath r t))).toList).isSome = true

instance decCopiesDisjoint (r : String) (ts : List String) :
    Decidable (copiesDisjoint r ts) := by
  unfold copiesDisjoint
  infer_instance

instance decAllPresentParse (env : CoverageEnv) (fs : FS) (r : String) (ts : List String) :
    Decidable (allPresentParse env fs r ts) := by
  unfold allPresentParse
  infer_instance

/-! ## Concrete fixtures for witnesses and counterexamples -/

/-- A concrete project configuration. -/
def project0 : Project :=
  ⟨"src", "tests", "reports", "."⟩

/-- A concrete toolbox configuration with the two usual test categories. -/
def toolbox0 : Toolbox :=
  ⟨"src", "tests", "reports", ["unit", "integration"]⟩

/-- An empty file system. -/
def fs0 : FS :=
  ⟨[]⟩

/-- A world in which every tool exits zero and every report file is
materialised empty. -/
def envAllOk : RunEnv :=
  ⟨fun _ => 0, fun _ => some ""⟩

/-- A world in which every tool exits 1 (reports still materialised). -/
def envAllFail : RunEnv :=
  ⟨fun _ => 1, fun _ => some "some lint messages"⟩

/-- A world in which exactly the first pylint sub-run fails. -/
def envPylintSrcFails : RunEnv :=
  ⟨fun c => if c = pylintSrcCmd project0 then 1 else 0, fun _ => some "E: bad code"⟩

/-- A coverage world: the unit artifact reports 80%, the integration
artifact 60%, and the data merged from both reports 72% — not the 70%
arithmetic mean. -/
def envCoverage : CoverageEnv :=
  ⟨fun dat =>
      if dat = "unit-data" then "TOTAL     10     2    80%"
      else if dat = "integration-data" then "TOTAL     10     4    60%"
      else if dat = "combined-data" then "TOTAL     20     5    72%"
      else "Name   Stmts   Miss",
   fun _ => "combined-data",
   fun _ => "html"⟩

/-- A file system holding both per-category coverage artifacts. -/
def fsCoverage : FS :=
  ⟨[(datPath "reports" "unit", "unit-data"),
    (datPath "reports" "integration", "integration-data")]⟩

/-- A file system holding only the unit coverage artifact. -/
def fsOnlyUnit : FS :=
  ⟨[(datPath "reports" "unit", "unit-data")]⟩

/-- A coverage world whose report output never contains a TOTAL row. -/
def envNoTotal : CoverageEnv :=
  ⟨fun _ => "Name   Stmts   Miss", fun _ => "combined-data", fun _ => "html"⟩

/-! ## File-system lemmas -/

theorem lookupFirst_filter {l : List (String × String)} {p q : String} (h : q ≠ p) :
    lookupFirst (l.filter (fun x => x.1 ≠ p)) q = lookupFirst l q := by
  induction l with
  | nil => rfl
  | cons x l ih =>
    have ih2 : lookupFirst (List.filter (fun x => !decide (x.1 = p)) l) q = lookupFirst l q := by
      simpa using ih
    by_cases hxp : x.1 = p
    · have hpq : ¬ p = q := fun hq => h hq.symm
      simp [List.filter_cons, lookupFirst, hxp, hpq, ih2]
    · by_cases hxq : x.1 = q
      · simp [List.filter_cons, lookupFirst, hxp, hxq, h]
      · simp [List.filter_cons, lookupFirst, hxp, hxq, ih2]

theorem FS.read?_write_self (fs : FS) (p v : String) :
    (fs.write p v).read? p = some v := by
  simp [FS.write, FS.read?, lookupFirst]

theorem FS.read?_write_ne (fs : FS) {p q : String} (v : String) (h : q ≠ p) :
    (fs.write p v).read? q = fs.read? q := by
  have hpq : ¬ p = q := fun hq => h hq.symm
  simp only [FS.write, FS.read?, lookupFirst, hpq, if_false]
  exact lookupFirst_filter h

theorem FS.existsFile_write_ne (fs : FS) {p q : String} (v : String) (h : q ≠ p) :
    (fs.write p v).existsFile q = fs.existsFile q := by
  simp only [FS.existsFile, FS.read?_write_ne fs v h]

theorem FS.read?_eraseFile_ne (fs : FS) {p q : String} (h : q ≠ p) :
    (fs.eraseFile p).read? q = fs.read? q := by
  simp only [FS.eraseFile, FS.read?]
  exact lookupFirst_filter h

theorem FS.read?_eraseAll (l : List String) (fs : FS) {p : String} (h : p ∉ l) :
    (l.foldl FS.eraseFile fs).read? p = fs.read? p := by
  induction l generalizing fs with
  | nil => rfl
  | cons q l ih =>
    simp only [List.mem_cons, not_or] at h
    simp only [List.foldl_cons]
    rw [ih (fs.eraseFile q) h.2]
    exact FS.read?_eraseFile_ne fs h.1

theorem read_contents_congr {fs fs' : FS} {p : String} (h : fs.read? p = fs'.read? p) :
    read_contents fs p = read_contents fs' p := by
  simp only [read_contents, h]

theorem FS.read?_of_existsFile {fs : FS} {p : String} (h : fs.existsFile p = true) :
    fs.read? p = some (read_contents fs p) := by
  simp only [FS.existsFile, Option.isSome_iff_exists] at h
  obtain ⟨v, hv⟩ := h
  simp [read_contents, hv]

/-! ## Path lemmas -/

theorem append_left_cancel_str {a b c : String} (h : a ++ b = a ++ c) : b = c := by
  have h2 := congrArg String.data h
  simp only [String.data_append] at h2
  exact String.ext (List.append_cancel_left h2)

theorem pathJoin_ne_of_ne {d x y : String} (h : x ≠ y) : pathJoin d x ≠ pathJoin d y := by
  intro he
  exact h (append_left_cancel_str he)

theorem combinedPath_ne_htmlIndexPath (r : String) :
    combinedPath r ≠ htmlIndexPath r := by
  intro h
  have h2 := congrArg String.data h
  simp only [combinedPath, htmlIndexPath, pathJoin, String.data_append, List.append_assoc] at h2
  have h3 := List.append_cancel_left h2
  revert h3
  decide

/-! ## Scanner lemmas: the embedded regex against its declarative reading -/

theorem takeWhile_all_append {p : Char → Bool} {x : Char} (hx : p x = false)
    (run : List Char) (hall : ∀ c ∈ run, p c = true) (post : List Char) :
    (run ++ x :: post).takeWhile p = run ∧ (run ++ x :: post).dropWhile p = x :: post := by
  induction run with
  | nil => simp [List.takeWhile_cons, List.dropWhile_cons, hx]
  | cons c run ih =>
    have hc : p c = true := hall c (List.mem_cons_self c run)
    have ih2 := ih (fun d hd => hall d (List.mem_cons_of_mem c hd))
    simp [List.takeWhile_cons, List.dropWhile_cons, hc, ih2.1, ih2.2]

theorem scanPercent_cons (c : Char) (rest : List Char) :
    scanPercent (c :: rest) =
      match matchPercentAt (c :: rest) with
      | some g => some g
      | none => if c = '\n' then none else scanPercent rest := rfl

theorem searchTOTAL_cons (c : Char) (rest : List Char) :
    searchTOTAL (c :: rest) =
      if startsWithTOTAL (c :: rest) then
        match scanPercent ((c :: rest).drop 5) with
        | some g => some g
        | none => searchTOTAL rest
      else searchTOTAL rest := rfl

theorem firstTotalScan_cons (c : Char) (rest : List Char) :
    firstTotalScan (c :: rest) =
      if startsWithTOTAL (c :: rest) then scanPercent ((c :: rest).drop 5)
      else firstTotalScan rest := rfl

theorem matchPercentAt_eq_some {cs : List Char} {g : String}
    (h : matchPercentAt cs = some g) :
    ∃ run post, cs = run ++ '%' :: post ∧ run ≠ [] ∧ (∀ c ∈ run, isDigitDot c = true) ∧
      g = String.mk (run ++ ['%']) := by
  unfold matchPercentAt at h
  by_cases he : (cs.takeWhile isDigitDot).isEmpty
  · rw [if_pos he] at h
    exact absurd h (by simp)
  · rw [if_neg he] at h
    by_cases hp : (cs.dropWhile isDigitDot).head? = some '%'
    · rw [if_pos hp] at h
      cases hd : cs.dropWhile isDigitDot with
      | nil => rw [hd] at hp; exact absurd hp (by simp)
      | cons d post =>
        rw [hd] at hp
        simp only [List.head?_cons, Option.some.injEq] at hp
        subst hp
        refine ⟨cs.takeWhile isDigitDot, post, ?_, ?_, ?_, ?_⟩
        · rw [← hd]
          exact (List.takeWhile_append_dropWhile isDigitDot cs).symm
        · intro hrun
          rw [hrun] at he
          exact he rfl
        · intro x hx
          exact List.mem_takeWhile_imp hx
        · cases h
          rfl
    · rw [if_neg hp] at h
      exact absurd h (by simp)

theorem matchPercentAt_append {run : List Char} (hne : run ≠ [])
    (hall : ∀ c ∈ run, isDigitDot c = true) (post : List Char) :
    matchPercentAt (run ++ '%' :: post) = some (String.mk (run ++ ['%'])) := by
  have hpct : isDigitDot '%' = false := by decide
  have hw := takeWhile_all_append hpct run hall post
  unfold matchPercentAt
  rw [hw.1, hw.2]
  rcases run with _ | ⟨c, run⟩
  · exact absurd rfl hne
  · simp

theorem scanPercent_eq_some {cs : List Char} {g : String} (h : scanPercent cs = some g) :
    ∃ mid run post, cs = mid ++ run ++ '%' :: post ∧ '\n' ∉ mid ∧ run ≠ [] ∧
      (∀ c ∈ run, isDigitDot c = true) ∧ g = String.mk (run ++ ['%']) := by
  induction cs with
  | nil => exact absurd h (by simp [scanPercent])
  | cons c rest ih =>
    rw [scanPercent_cons] at h
    cases hm : matchPercentAt (c :: rest) with
    | some g2 =>
      rw [hm] at h
      cases h
      obtain ⟨run, post, hcs, hne, hall, hg⟩ := matchPercentAt_eq_some hm
      exact ⟨[], run, post, by simpa using hcs, by simp, hne, hall, hg⟩
    | none =>
      rw [hm] at h
      by_cases hc : c = '\n'
      · rw [if_pos hc] at h
        exact absurd h (by simp)
      · rw [if_neg hc] at h
        obtain ⟨mid, run, post, hcs, hmid, hne, hall, hg⟩ := ih h
        refine ⟨c :: mid, run, post, by rw [hcs]; rfl, ?_, hne, hall, hg⟩
        intro hin
        rcases List.mem_cons.mp hin with h1 | h1
        · exact hc h1.symm
        · exact hmid h1

theorem scanPercent_append_isSome {mid : List Char} (hmid : '\n' ∉ mid)
    {run : List Char} (hne : run ≠ []) (hall : ∀ c ∈ run, isDigitDot c = true)
    (post : List Char) :
    (scanPercent (mid ++ run ++ '%' :: post)).isSome = true := by
  induction mid with
  | nil =>
    rcases run with _ | ⟨c, run'⟩
    · exact absurd rfl hne
    · have hm := matchPercentAt_append hne hall post
      simp only [List.nil_append, List.cons_append] at hm ⊢
      simp [scanPercent_cons, hm]
  | cons m mid' ih =>
    have hmne : m ≠ '\n' := fun he => hmid (he ▸ List.mem_cons_self m mid')
    have ih2 := ih (fun hin => hmid (List.mem_cons_of_mem m hin))
    simp only [List.cons_append] at ih2 ⊢
    rw [scanPercent_cons]
    cases hm : matchPercentAt (m :: (mid' ++ run ++ '%' :: post)) with
    | some g => simp
    | none => simpa [hmne] using ih2

theorem startsWithTOTAL_totalToken (tail : List Char) :
    startsWithTOTAL (totalToken ++ tail) = true := rfl

theorem drop5_totalToken (tail : List Char) : (totalToken ++ tail).drop 5 = tail := rfl

theorem startsWithTOTAL_inv {cs : List Char} (h : startsWithTOTAL cs = true) :
    ∃ tail, cs = totalToken ++ tail := by
  rcases cs with _ | ⟨c1, _ | ⟨c2, _ | ⟨c3, _ | ⟨c4, _ | ⟨c5, tail⟩⟩⟩⟩⟩ <;>
    simp [startsWithTOTAL] at h
  obtain ⟨⟨⟨⟨h1, h2⟩, h3⟩, h4⟩, h5⟩ := h
  subst h1; subst h2; subst h3; subst h4; subst h5
  exact ⟨tail, rfl⟩

theorem hasTotalPercent_cons {c : Char} {rest : List Char}
    (h : hasTotalPercent rest) : hasTotalPercent (c :: rest) := by
  obtain ⟨pre, mid, run, post, hcs, hmid, hne, hall⟩ := h
  exact ⟨c :: pre, mid, run, post, by rw [hcs]; rfl, hmid, hne, hall⟩

theorem hasTotalPercent_of_searchTOTAL {cs : List Char}
    (h : (searchTOTAL cs).isSome = true) : hasTotalPercent cs := by
  induction cs with
  | nil => exact absurd h (by simp [searchTOTAL])
  | cons c rest ih =>
    rw [searchTOTAL_cons] at h
    by_cases hst : startsWithTOTAL (c :: rest) = true
    · rw [if_pos hst] at h
      obtain ⟨tail, htail⟩ := startsWithTOTAL_inv hst
      cases hsp : scanPercent ((c :: rest).drop 5) with
      | some g =>
        rw [htail, drop5_totalToken] at hsp
        obtain ⟨mid, run, post, hcs, hmid, hne, hall⟩ := scanPercent_eq_some hsp
        exact ⟨[], mid, run, post, by rw [htail, hcs]; rfl, hmid, hne, hall.1⟩
      | none =>
        rw [hsp] at h
        exact hasTotalPercent_cons (ih h)
    · rw [if_neg (by simpa using hst)] at h
      exact hasTotalPercent_cons (ih h)

theorem searchTOTAL_total_head {tail : List Char} {g : String}
    (h : scanPercent tail = some g) :
    searchTOTAL (totalToken ++ tail) = some g := by
  have hs : startsWithTOTAL ('T' :: 'O' :: 'T' :: 'A' :: 'L' :: tail) = true := rfl
  rw [show totalToken ++ tail = 'T' :: ('O' :: 'T' :: 'A' :: 'L' :: tail) from rfl]
  rw [searchTOTAL_cons]
  simp only [hs, if_true]
  rw [show ('T' :: 'O' :: 'T' :: 'A' :: 'L' :: tail).drop 5 = tail from rfl, h]

theorem searchTOTAL_isSome_of (pre : List Char) {mid : List Char} (hmid : '\n' ∉ mid)
    {run : List Char} (hne : run ≠ []) (hall : ∀ c ∈ run, isDigitDot c = true)
    (post : List Char) :
    (searchTOTAL (pre ++ totalToken ++ mid ++ run ++ '%' :: post)).isSome = true := by
  induction pre with
  | nil =>
    have hsp := scanPercent_append_isSome hmid hne hall post
    obtain ⟨g, hg⟩ := Option.isSome_iff_exists.mp hsp
    simp only [List.append_assoc] at hg ⊢
    rw [List.nil_append, searchTOTAL_total_head hg]
    rfl
  | cons a pre' ih =>
    simp only [List.cons_append]
    rw [searchTOTAL_cons]
    by_cases hst : startsWithTOTAL (a :: (pre' ++ totalToken ++ mid ++ run ++ '%' :: post)) = true
    · simp only [hst, if_true]
      cases hsp : scanPercent ((a :: (pre' ++ totalToken ++ mid ++ run ++ '%' :: post)).drop 5) with
      | some g => rfl
      | none => exact ih
    · rw [if_neg (by simpa using hst)]
      exact ih

theorem searchTOTAL_isSome_iff (cs : List Char) :
    (searchTOTAL cs).isSome = true ↔ hasTotalPercent cs := by
  constructor
  · exact hasTotalPercent_of_searchTOTAL
  · rintro ⟨pre, mid, run, post, hcs, hmid, hne, hall⟩
    rw [hcs]
    exact searchTOTAL_isSome_of pre hmid hne hall post

/-! ## The per-category loop of `coverage_report` -/

theorem coverageLoop_cons (env : CoverageEnv) (r t : String) (rest : List String)
    (fs : FS) (evs : List Event) (files : List String) :
    coverageLoop env r (t :: rest) fs evs files =
      if fs.existsFile (datPath r t) then
        match _get_total_coverage env fs (datPath r t) with
        | Except.error msg => Except.error (fs, evs, msg)
        | Except.ok pct =>
          coverageLoop env r rest (fs.write (copyPath r t) (read_contents fs (datPath r t)))
            (evs ++ [Event.printed (categoryCoverageMsg t pct)])
            (files ++ [copyPath r t])
      else
        coverageLoop env r rest fs
          (evs ++ [Event.warn (missingDatMsg t (datPath r t))]) files := rfl

theorem presentTypes_cons_pos {fs : FS} {r t : String} {ts : List String}
    (h : fs.existsFile (datPath r t) = true) :
    presentTypes fs r (t :: ts) = t :: presentTypes fs r ts := by
  simp [presentTypes, List.filter_cons, h]

theorem presentTypes_cons_neg {fs : FS} {r t : String} {ts : List String}
    (h : ¬ fs.existsFile (datPath r t) = true) :
    presentTypes fs r (t :: ts) = presentTypes fs r ts := by
  simp [presentTypes, List.filter_cons, Bool.eq_false_iff.mpr h]

theorem mem_of_presentTypes {fs : FS} {r t : String} {ts : List String}
    (h : t ∈ presentTypes fs r ts) : t ∈ ts ∧ fs.existsFile (datPath r t) = true := by
  unfold presentTypes at h
  exact ⟨(List.mem_filter.mp h).1, (List.mem_filter.mp h).2⟩

theorem categoryEvent_congr {env : CoverageEnv} {fs fs' : FS} {r t : String}
    (hex : fs'.existsFile (datPath r t) = fs.existsFile (datPath r t))
    (hrd : fs'.read? (datPath r t) = fs.read? (datPath r t)) :
    categoryEvent env fs' r t = categoryEvent env fs r t := by
  unfold categoryEvent
  rw [hex, read_contents_congr hrd]

theorem coverageLoop_spec (env : CoverageEnv) (r : String) :
    ∀ (ts : List String) (fs : FS) (evs : List Event) (files : List String),
      (∀ t ∈ ts, ∀ t2 ∈ ts, copyPath r t ≠ datPath r t2) →
      (∀ t ∈ ts, ∀ t2 ∈ ts, t ≠ t2 → copyPath r t ≠ copyPath r t2) →
      allPresentParse env fs r ts →
      ∃ fsN, coverageLoop env r ts fs evs files =
          Except.ok (fsN, evs ++ ts.map (categoryEvent env fs r),
            files ++ (presentTypes fs r ts).map (copyPath r)) ∧
        (∀ p, (∀ t ∈ presentTypes fs r ts, p ≠ copyPath r t) → fsN.read? p = fs.read? p) ∧
        (∀ t ∈ presentTypes fs r ts, fsN.read? (copyPath r t) = fs.read? (datPath r t)) := by
  intro ts
  induction ts with
  | nil =>
    intro fs evs files _ _ _
    exact ⟨fs, by simp [coverageLoop, presentTypes], fun p _ => rfl, by simp [presentTypes]⟩
  | cons t ts ih =>
    intro fs evs files H1 H2 H3
    have htmem : t ∈ t :: ts := List.mem_cons_self t ts
    by_cases hex : fs.existsFile (datPath r t) = true
    · have hps := H3 t htmem hex
      obtain ⟨g, hg⟩ := Option.isSome_iff_exists.mp hps
      have hget : _get_total_coverage env fs (datPath r t) = Except.ok g := by
        simp only [_get_total_coverage]
        rw [hg]
      have hcat : categoryEvent env fs r t = Event.printed (categoryCoverageMsg t g) := by
        unfold categoryEvent
        rw [if_pos hex, hg, Option.getD_some]
      set fs' := fs.write (copyPath r t) (read_contents fs (datPath r t)) with hfs'
      have hstable_ex : ∀ t2 ∈ ts, fs'.existsFile (datPath r t2) = fs.existsFile (datPath r t2) := by
        intro t2 h2
        exact FS.existsFile_write_ne fs _ (H1 t htmem t2 (List.mem_cons_of_mem t h2)).symm
      have hstable_rd : ∀ t2 ∈ ts, fs'.read? (datPath r t2) = fs.read? (datPath r t2) := by
        intro t2 h2
        exact FS.read?_write_ne fs _ (H1 t htmem t2 (List.mem_cons_of_mem t h2)).symm
      have H1' : ∀ a ∈ ts, ∀ b ∈ ts, copyPath r a ≠ datPath r b :=
        fun a ha b hb => H1 a (List.mem_cons_of_mem t ha) b (List.mem_cons_of_mem t hb)
      have H2' : ∀ a ∈ ts, ∀ b ∈ ts, a ≠ b → copyPath r a ≠ copyPath r b :=
        fun a ha b hb => H2 a (List.mem_cons_of_mem t ha) b (List.mem_cons_of_mem t hb)
      have H3' : allPresentParse env fs' r ts := by
        intro t2 h2 hex2
        rw [hstable_ex t2 h2] at hex2
        rw [read_contents_congr (hstable_rd t2 h2)]
        exact H3 t2 (List.mem_cons_of_mem t h2) hex2
      obtain ⟨fsN, hrun, hframe, hcopy⟩ :=
        ih fs' (evs ++ [Event.printed (categoryCoverageMsg t g)]) (files ++ [copyPath r t])
          H1' H2' H3'
      have hpres : presentTypes fs' r ts = presentTypes fs r ts := by
        unfold presentTypes
        exact List.filter_congr (fun t2 h2 => hstable_ex t2 h2)
      have hmap : ts.map (categoryEvent env fs' r) = ts.map (categoryEvent env fs r) :=
        List.map_congr_left (fun t2 h2 => categoryEvent_congr (hstable_ex t2 h2) (hstable_rd t2 h2))
      have hstep : coverageLoop env r (t :: ts) fs evs files =
          coverageLoop env r ts fs' (evs ++ [Event.printed (categoryCoverageMsg t g)])
            (files ++ [copyPath r t]) := by
        rw [coverageLoop_cons, if_pos hex, hget]
      refine ⟨fsN, ?_, ?_, ?_⟩
      · rw [hstep, hrun, hmap, hpres, presentTypes_cons_pos hex]
        simp [hcat, List.append_assoc]
      · intro p hp
        rw [presentTypes_cons_pos hex] at hp
        have hpt : p ≠ copyPath r t := hp t (List.mem_cons_self t (presentTypes fs r ts))
        rw [hframe p (fun t2 h2 => hp t2 (List.mem_cons_of_mem t (hpres ▸ h2)))]
        rw [hfs']
        exact FS.read?_write_ne fs _ hpt
      · intro t2 h2
        rw [presentTypes_cons_pos hex] at h2
        rcases List.mem_cons.mp h2 with rfl | h2tail
        · by_cases hmem : ∃ t3 ∈ presentTypes fs r ts, copyPath r t3 = copyPath r t2
          · obtain ⟨t3, h3mem, h3eq⟩ := hmem
            have h3ts : t3 ∈ ts := (mem_of_presentTypes h3mem).1
            have ht3 : t3 = t2 := by
              by_contra hne
              exact H2 t3 (List.mem_cons_of_mem t2 h3ts) t2 htmem hne h3eq
            subst ht3
            rw [hcopy t3 (hpres ▸ h3mem)]
            exact hstable_rd t3 h3ts
          · push_neg at hmem
            rw [hframe (copyPath r t2) (fun t3 h3 => (hmem t3 (hpres ▸ h3)).symm)]
            rw [hfs', FS.read?_write_self, FS.read?_of_existsFile hex]
        · rw [hcopy t2 (hpres ▸ h2tail)]
          exact hstable_rd t2 (mem_of_presentTypes h2tail).1
    · have H1' : ∀ a ∈ ts, ∀ b ∈ ts, copyPath r a ≠ datPath r b :=
        fun a ha b hb => H1 a (List.mem_cons_of_mem t ha) b (List.mem_cons_of_mem t hb)
      have H2' : ∀ a ∈ ts, ∀ b ∈ ts, a ≠ b → copyPath r a ≠ copyPath r b :=
        fun a ha b hb => H2 a (List.mem_cons_of_mem t ha) b (List.mem_cons_of_mem t hb)
      have H3' : allPresentParse env fs r ts :=
        fun t2 h2 => H3 t2 (List.mem_cons_of_mem t h2)
      obtain ⟨fsN, hrun, hframe, hcopy⟩ :=
        ih fs (evs ++ [Event.warn (missingDatMsg t (datPath r t))]) files H1' H2' H3'
      have hcat : categoryEvent env fs r t = Event.warn (missingDatMsg t (datPath r t)) := by
        unfold categoryEvent
        rw [if_neg hex]
      refine ⟨fsN, ?_, ?_, ?_⟩
      · rw [coverageLoop_cons, if_neg hex, hrun, presentTypes_cons_neg hex]
        simp [hcat, List.append_assoc]
      · intro p hp
        rw [presentTypes_cons_neg hex] at hp
        exact hframe p hp
      · intro t2 h2
        rw [presentTypes_cons_neg hex] at h2
        exact hcopy t2 h2

/-! ## The combine step and the whole of `coverage_report` -/

theorem htmlIndexPath_def (r : String) :
    pathJoin (pathJoin r "coverage-report") "index.html" = htmlIndexPath r := rfl

theorem coverage_report_ok {env : CoverageEnv} {fs : FS} {toolbox : Toolbox}
    {res : FS × List Event × List String}
    (h : coverageLoop env toolbox.reports_directory toolbox.test_types fs
      [Event.header "Generating coverage report" 1] [] = Except.ok res) :
    coverage_report env fs toolbox =
      coverageCombineStep env toolbox.reports_directory res := by
  simp only [coverage_report]
  rw [h]

theorem coverageCombineStep_spec (env : CoverageEnv) (r : String) (fsN : FS)
    (evs : List Event) (files : List String) :
    ∃ fs3 : FS,
      fs3.read? (combinedPath r) = some (env.combine (files.map (read_contents fsN))) ∧
      (∀ p, p ≠ htmlIndexPath r → p ≠ combinedPath r → p ∉ files →
        fs3.read? p = fsN.read? p) ∧
      (∀ pct, searchTOTAL
          (env.reportOutput (env.combine (files.map (read_contents fsN)))).toList = some pct →
        coverageCombineStep env r (fsN, evs, files) =
          (fs3, evs ++ [Event.run (combineCmd (combinedPath r)
              (pathJoin r "coverage-report") files)] ++
            [Event.printed ("Total coverage: " ++ pct),
              Event.printed (referMsg (pathJoin r "coverage-report"))], none)) ∧
      (searchTOTAL
          (env.reportOutput (env.combine (files.map (read_contents fsN)))).toList = none →
        coverageCombineStep env r (fsN, evs, files) =
          (fs3, evs ++ [Event.run (combineCmd (combinedPath r)
              (pathJoin r "coverage-report") files)],
            some ("Regex failed on output: " ++
              env.reportOutput (env.combine (files.map (read_contents fsN)))))) := by
  refine ⟨((files.foldl FS.eraseFile fsN).write (combinedPath r)
      (env.combine (files.map (read_contents fsN)))).write (htmlIndexPath r)
      (env.htmlReport (env.combine (files.map (read_contents fsN)))), ?_, ?_, ?_, ?_⟩
  · rw [FS.read?_write_ne _ _ (combinedPath_ne_htmlIndexPath r), FS.read?_write_self]
  · intro p h1 h2 h3
    rw [FS.read?_write_ne _ _ h1, FS.read?_write_ne _ _ h2, FS.read?_eraseAll files fsN h3]
  · intro pct hs
    have hread3 : (((files.foldl FS.eraseFile fsN).write (combinedPath r)
        (env.combine (files.map (read_contents fsN)))).write (htmlIndexPath r)
        (env.htmlReport (env.combine (files.map (read_contents fsN))))).read?
          (combinedPath r) = some (env.combine (files.map (read_contents fsN))) := by
      rw [FS.read?_write_ne _ _ (combinedPath_ne_htmlIndexPath r), FS.read?_write_self]
    have hget : _get_total_coverage env
        (((files.foldl FS.eraseFile fsN).write (combinedPath r)
          (env.combine (files.map (read_contents fsN)))).write (htmlIndexPath r)
          (env.htmlReport (env.combine (files.map (read_contents fsN)))))
        (combinedPath r) = Except.ok pct := by
      simp only [_get_total_coverage, read_contents, hread3, Option.getD_some]
      rw [hs]
    simp only [coverageCombineStep, htmlIndexPath_def]
    rw [hget]
  · intro hs
    have hread3 : (((files.foldl FS.eraseFile fsN).write (combinedPath r)
        (env.combine (files.map (read_contents fsN)))).write (htmlIndexPath r)
        (env.htmlReport (env.combine (files.map (read_contents fsN))))).read?
          (combinedPath r) = some (env.combine (files.map (read_contents fsN))) := by
      rw [FS.read?_write_ne _ _ (combinedPath_ne_htmlIndexPath r), FS.read?_write_self]
    have hget : _get_total_coverage env
        (((files.foldl FS.eraseFile fsN).write (combinedPath r)
          (env.combine (files.map (read_contents fsN)))).write (htmlIndexPath r)
          (env.htmlReport (env.combine (files.map (read_contents fsN)))))
        (combinedPath r) = Except.error ("Regex failed on output: " ++
          env.reportOutput (env.combine (files.map (read_contents fsN)))) := by
      simp only [_get_total_coverage, read_contents, hread3, Option.getD_some]
      rw [hs]
    simp only [coverageCombineStep, htmlIndexPath_def]
    rw [hget]

theorem coverage_report_spec (env : CoverageEnv) (fs : FS) (toolbox : Toolbox)
    (Hd : copiesDisjoint toolbox.reports_directory toolbox.test_types)
    (Hp : allPresentParse env fs toolbox.reports_directory toolbox.test_types) :
    ∃ fs3 : FS,
      (∀ pct, searchTOTAL (env.reportOutput (combinedOf env fs toolbox)).toList = some pct →
        coverage_report env fs toolbox =
          (fs3, [Event.header "Generating coverage report" 1] ++
            toolbox.test_types.map (categoryEvent env fs toolbox.reports_directory) ++
            [Event.run (combineCmd (combinedPath toolbox.reports_directory)
              (pathJoin toolbox.reports_directory "coverage-report")
              ((presentTypes fs toolbox.reports_directory toolbox.test_types).map
                (copyPath toolbox.reports_directory)))] ++
            [Event.printed ("Total coverage: " ++ pct),
              Event.printed (referMsg (pathJoin toolbox.reports_directory "coverage-report"))],
            none)) ∧
      (searchTOTAL (env.reportOutput (combinedOf env fs toolbox)).toList = none →
        coverage_report env fs toolbox =
          (fs3, [Event.header "Generating coverage report" 1] ++
            toolbox.test_types.map (categoryEvent env fs toolbox.reports_directory) ++
            [Event.run (combineCmd (combinedPath toolbox.reports_directory)
              (pathJoin toolbox.reports_directory "coverage-report")
              ((presentTypes fs toolbox.reports_directory toolbox.test_types).map
                (copyPath toolbox.reports_directory)))],
            some ("Regex failed on output: " ++
              env.reportOutput (combinedOf env fs toolbox)))) ∧
      fs3.read? (combinedPath toolbox.reports_directory) = some (combinedOf env fs toolbox) ∧
      (∀ p, p ≠ htmlIndexPath toolbox.reports_directory →
        p ≠ combinedPath toolbox.reports_directory →
        (∀ t ∈ presentTypes fs toolbox.reports_directory toolbox.test_types,
          p ≠ copyPath toolbox.reports_directory t) →
        fs3.read? p = fs.read? p) := by
  obtain ⟨fsN, hrun, hframe, hcopy⟩ :=
    coverageLoop_spec env toolbox.reports_directory toolbox.test_types fs
      [Event.header "Generating coverage report" 1] [] Hd.1 Hd.2 Hp
  simp only [List.nil_append] at hrun
  obtain ⟨fs3, hread3, hframe3, hok, herr⟩ :=
    coverageCombineStep_spec env toolbox.reports_directory fsN
      ([Event.header "Generating coverage report" 1] ++
        toolbox.test_types.map (categoryEvent env fs toolbox.reports_directory))
      ((presentTypes fs toolbox.reports_directory toolbox.test_types).map
        (copyPath toolbox.reports_directory))
  have hcombEq : env.combine
      (((presentTypes fs toolbox.reports_directory toolbox.test_types).map
        (copyPath toolbox.reports_directory)).map (read_contents fsN)) =
      combinedOf env fs toolbox := by
    unfold combinedOf
    rw [List.map_map]
    congr 1
    apply List.map_congr_left
    intro t ht
    show read_contents fsN (copyPath toolbox.reports_directory t) =
      read_contents fs (datPath toolbox.reports_directory t)
    simp only [read_contents, hcopy t ht]
  rw [hcombEq] at hread3 hok herr
  refine ⟨fs3, ?_, ?_, hread3, ?_⟩
  · intro pct hs
    rw [coverage_report_ok hrun, hok pct hs]
  · intro hs
    rw [coverage_report_ok hrun, herr hs]
  · intro p h1 h2 h3
    have hpf : p ∉ (presentTypes fs toolbox.reports_directory toolbox.test_types).map
        (copyPath toolbox.reports_directory) := by
      intro hpmem
      obtain ⟨t, ht, hteq⟩ := List.mem_map.mp hpmem
      exact h3 t ht hteq.symm
    rw [hframe3 p h1 h2 hpf]
    exact hframe p h3

theorem FS.read?_write_cases (fs : FS) (p q v : String) :
    (fs.write p v).read? q = if q = p then some v else fs.read? q := by
  by_cases h : q = p
  · rw [if_pos h, h, FS.read?_write_self]
  · rw [if_neg h, FS.read?_write_ne fs v h]

theorem FS.existsFile_write_cases (fs : FS) (p q v : String) :
    (fs.write p v).existsFile q = (decide (q = p) || fs.existsFile q) := by
  by_cases h : q = p <;> simp [FS.existsFile, FS.read?_write_cases, h]

/-! ## Lint pipeline lemmas -/

theorem runCmds_nil : runCmds [] = [] := rfl

theorem runCmds_cons_header (t : String) (n : Nat) (l : List Event) :
    runCmds (Event.header t n :: l) = runCmds l := rfl

theorem runCmds_cons_run (c : String) (l : List Event) :
    runCmds (Event.run c :: l) = c :: runCmds l := rfl

theorem runCmds_cons_printed (s : String) (l : List Event) :
    runCmds (Event.printed s :: l) = runCmds l := rfl

theorem runCmds_cons_formatted (s : String) (l : List Event) :
    runCmds (Event.formatted s :: l) = runCmds l := rfl

theorem runCmds_cons_successMark (l : List Event) :
    runCmds (Event.successMark :: l) = runCmds l := rfl

theorem runCmds_append (a b : List Event) :
    runCmds (a ++ b) = runCmds a ++ runCmds b := by
  simp [runCmds]

theorem run_pylint_spec (env : RunEnv) (fs : FS) (dirs : List String) (rp rc : String) :
    (run_pylint env fs dirs rp rc).1 =
      (match env.fileOutput (pylintCmd rc dirs rp) with
       | some out => fs.write rp out
       | none => fs) ∧
    ((run_pylint env fs dirs rp rc).2.2 =
      if env.exitCode (pylintCmd rc dirs rp) = 0 then none
      else some ⟨pylintCmd rc dirs rp, env.exitCode (pylintCmd rc dirs rp)⟩) ∧
    runCmds (run_pylint env fs dirs rp rc).2.1 = [pylintCmd rc dirs rp] := by
  refine ⟨?_, ?_, ?_⟩
  · by_cases h : env.exitCode (pylintCmd rc dirs rp) = 0 <;>
      simp [run_pylint, runRedirect, h]
  · by_cases h : env.exitCode (pylintCmd rc dirs rp) = 0 <;>
      simp [run_pylint, runRedirect, h]
  · by_cases h : env.exitCode (pylintCmd rc dirs rp) = 0 <;>
      simp [run_pylint, runRedirect, h, runCmds_append, runCmds_cons_header,
        runCmds_cons_run, runCmds_cons_successMark, runCmds_cons_printed, runCmds_nil,
        apply_ite runCmds, ite_self]

theorem lint_pydocstyle_spec (env : RunEnv) (fs : FS) (project : Project) :
    (lint_pydocstyle env fs project).1 =
      (match env.fileOutput (pydocstyleFullCmd project) with
       | some out => fs.write (pathJoin project.reports_directory "pydocstyle-report.log") out
       | none => fs) ∧
    ((lint_pydocstyle env fs project).2.2 = none ↔
      env.exitCode (pydocstyleFullCmd project) = 0) ∧
    runCmds (lint_pydocstyle env fs project).2.1 = [pydocstyleFullCmd project] ∧
    Event.successMark ∉ (lint_pydocstyle env fs project).2.1 := by
  refine ⟨rfl, ?_, ?_, ?_⟩
  · by_cases h : env.exitCode (pydocstyleFullCmd project) = 0 <;>
      simp [lint_pydocstyle, runRedirect, pydocstyleFullCmd, h]
  · simp [lint_pydocstyle, runRedirect, pydocstyleFullCmd, runCmds_append,
      runCmds_cons_header, runCmds_cons_run, runCmds_cons_formatted, runCmds_nil,
      apply_ite runCmds, ite_self]
  · intro hmem
    simp only [lint_pydocstyle, List.mem_append] at hmem
    rcases hmem with h1 | h1
    · simp at h1
    · revert h1
      split <;> simp

theorem lint_pycodestyle_spec (env : RunEnv) (fs : FS) (project : Project) :
    (lint_pycodestyle env fs project).1 =
      (match env.fileOutput (pycodestyleFullCmd project) with
       | some out => fs.write (pathJoin project.reports_directory "pycodestyle-report.log") out
       | none => fs) ∧
    ((lint_pycodestyle env fs project).2.2 = none ↔
      env.exitCode (pycodestyleFullCmd project) = 0) ∧
    runCmds (lint_pycodestyle env fs project).2.1 = [pycodestyleFullCmd project] ∧
    Event.successMark ∉ (lint_pycodestyle env fs project).2.1 := by
  refine ⟨rfl, ?_, ?_, ?_⟩
  · by_cases h : env.exitCode (pycodestyleFullCmd project) = 0 <;>
      simp [lint_pycodestyle, runRedirect, pycodestyleFullCmd, pycodestyleCmd, h]
  · simp [lint_pycodestyle, runRedirect, pycodestyleFullCmd, pycodestyleCmd, runCmds_append,
      runCmds_cons_header, runCmds_cons_run, runCmds_cons_formatted, runCmds_nil,
      apply_ite runCmds, ite_self]
  · intro hmem
    simp only [lint_pycodestyle, List.mem_append] at hmem
    rcases hmem with h1 | h1
    · simp at h1
    · revert h1
      split <;> simp

theorem lint_pylint_spec (env : RunEnv) (fs : FS) (project : Project) :
    ((lint_pylint env fs project).2.2 = none ↔
      (env.exitCode (pylintSrcCmd project) = 0 ∧
        env.exitCode (pylintTestsCmd project) = 0)) ∧
    runCmds (lint_pylint env fs project).2.1 =
      (if env.exitCode (pylintSrcCmd project) = 0 then
        [pylintSrcCmd project, pylintTestsCmd project]
       else [pylintSrcCmd project]) := by
  have e1 := run_pylint_spec env fs [project.source_directory]
    (pathJoin project.reports_directory "pylint-report.log")
    (pathJoin project.root_directory ".pylintrc")
  rw [show pylintCmd (pathJoin project.root_directory ".pylintrc") [project.source_directory]
    (pathJoin project.reports_directory "pylint-report.log") = pylintSrcCmd project from rfl] at e1
  by_cases h1 : env.exitCode (pylintSrcCmd project) = 0
  · have herr1 : (run_pylint env fs [project.source_directory]
        (pathJoin project.reports_directory "pylint-report.log")
        (pathJoin project.root_directory ".pylintrc")).2.2 = none := by
      rw [e1.2.1, if_pos h1]
    have e2 := run_pylint_spec env (run_pylint env fs [project.source_directory]
        (pathJoin project.reports_directory "pylint-report.log")
        (pathJoin project.root_directory ".pylintrc")).1 [project.tests_directory]
      (pathJoin project.reports_directory "pylint-report-tests.log")
      (pathJoin project.tests_directory ".pylintrc")
    rw [show pylintCmd (pathJoin project.tests_directory ".pylintrc") [project.tests_directory]
      (pathJoin project.reports_directory "pylint-report-tests.log") = pylintTestsCmd project
      from rfl] at e2
    constructor
    · simp only [lint_pylint, herr1]
      rw [e2.2.1]
      by_cases h2 : env.exitCode (pylintTestsCmd project) = 0 <;> simp [h1, h2]
    · simp only [lint_pylint, herr1]
      rw [if_pos h1, runCmds_append, runCmds_cons_header, e1.2.2, e2.2.2]
      rfl
  · have herr1 : (run_pylint env fs [project.source_directory]
        (pathJoin project.reports_directory "pylint-report.log")
        (pathJoin project.root_directory ".pylintrc")).2.2 =
        some ⟨pylintSrcCmd project, env.exitCode (pylintSrcCmd project)⟩ := by
      rw [e1.2.1, if_neg h1]
    constructor
    · simp only [lint_pylint, herr1]
      simp [h1]
    · simp only [lint_pylint, herr1]
      rw [if_neg h1, runCmds_cons_header, e1.2.2]

theorem lint_spec (env : RunEnv) (fs : FS) (project : Project) :
    runCmds (lint env fs project).2.1 = lintFailFastCmds env project ∧
    ((lint env fs project).2.2 = none ↔
      (env.exitCode (pylintSrcCmd project) = 0 ∧ env.exitCode (pylintTestsCmd project) = 0 ∧
        env.exitCode (pycodestyleFullCmd project) = 0 ∧
        env.exitCode (pydocstyleFullCmd project) = 0)) := by
  obtain ⟨ep_err, ep_cmds⟩ := lint_pylint_spec env fs project
  by_cases h1 : env.exitCode (pylintSrcCmd project) = 0
  · by_cases h2 : env.exitCode (pylintTestsCmd project) = 0
    · have herr1 : (lint_pylint env fs project).2.2 = none := ep_err.mpr ⟨h1, h2⟩
      obtain ⟨ec_fs, ec_err, ec_cmds, _⟩ :=
        lint_pycodestyle_spec env (lint_pylint env fs project).1 project
      by_cases h3 : env.exitCode (pycodestyleFullCmd project) = 0
      · have herr2 : (lint_pycodestyle env (lint_pylint env fs project).1 project).2.2 = none :=
          ec_err.mpr h3
        obtain ⟨ed_fs, ed_err, ed_cmds, _⟩ := lint_pydocstyle_spec env
          (lint_pycodestyle env (lint_pylint env fs project).1 project).1 project
        constructor
        · simp only [lint, herr1, herr2]
          rw [runCmds_append, runCmds_append, runCmds_cons_header, ep_cmds, ec_cmds, ed_cmds,
            if_pos h1, lintFailFastCmds, if_neg (fun hc => hc h1), if_neg (fun hc => hc h2),
            if_neg (fun hc => hc h3)]
          rfl
        · simp only [lint, herr1, herr2]
          rw [ed_err]
          simp [h1, h2, h3]
      · have herr2 : (lint_pycodestyle env (lint_pylint env fs project).1 project).2.2 =
            some ⟨pycodestyleFullCmd project, env.exitCode (pycodestyleFullCmd project)⟩ := by
          have : ¬ (lint_pycodestyle env (lint_pylint env fs project).1 project).2.2 = none :=
            fun hc => h3 (ec_err.mp hc)
          revert this
          simp only [lint_pycodestyle, runRedirect]
          intro hne
          rw [if_neg ?hcond]
          case hcond =>
            intro hzero
            exact hne (by simp [hzero])
          rfl
        constructor
        · simp only [lint, herr1, herr2]
          rw [runCmds_append, runCmds_cons_header, ep_cmds, ec_cmds,
            if_pos h1, lintFailFastCmds, if_neg (fun hc => hc h1), if_neg (fun hc => hc h2),
            if_pos h3]
          rfl
        · simp only [lint, herr1, herr2]
          simp [h3]
    · have herr1 : (lint_pylint env fs project).2.2 ≠ none :=
        fun hc => h2 (ep_err.mp hc).2
      obtain ⟨e, he⟩ := Option.ne_none_iff_exists.mp herr1
      constructor
      · simp only [lint, ← he]
        rw [runCmds_cons_header, ep_cmds, if_pos h1, lintFailFastCmds,
          if_neg (fun hc => hc h1), if_pos (fun hc => h2 hc)]
      · simp only [lint, ← he]
        simp [h2]
  · have herr1 : (lint_pylint env fs project).2.2 ≠ none :=
      fun hc => h1 (ep_err.mp hc).1
    obtain ⟨e, he⟩ := Option.ne_none_iff_exists.mp herr1
    constructor
    · simp only [lint, ← he]
      rw [runCmds_cons_header, ep_cmds, if_neg h1, lintFailFastCmds, if_pos (fun hc => h1 hc)]
    · simp only [lint, ← he]
      simp [h1]

theorem lint_fs_all_ok (env : RunEnv) (fs : FS) (project : Project)
    (h1 : env.exitCode (pylintSrcCmd project) = 0)
    (h2 : env.exitCode (pylintTestsCmd project) = 0)
    (h3 : env.exitCode (pycodestyleFullCmd project) = 0)
    (o1 o2 o3 o4 : String)
    (ho1 : env.fileOutput (pylintSrcCmd project) = some o1)
    (ho2 : env.fileOutput (pylintTestsCmd project) = some o2)
    (ho3 : env.fileOutput (pycodestyleFullCmd project) = some o3)
    (ho4 : env.fileOutput (pydocstyleFullCmd project) = some o4) :
    (lint env fs project).1 =
      (((fs.write (pathJoin project.reports_directory "pylint-report.log") o1).write
        (pathJoin project.reports_directory "pylint-report-tests.log") o2).write
        (pathJoin project.reports_directory "pycodestyle-report.log") o3).write
        (pathJoin project.reports_directory "pydocstyle-report.log") o4 := by
  obtain ⟨ep_err, _⟩ := lint_pylint_spec env fs project
  have herr1 : (lint_pylint env fs project).2.2 = none := ep_err.mpr ⟨h1, h2⟩
  obtain ⟨ec_fs, ec_err, _, _⟩ := lint_pycodestyle_spec env (lint_pylint env fs project).1 project
  have herr2 : (lint_pycodestyle env (lint_pylint env fs project).1 project).2.2 = none :=
    ec_err.mpr h3
  obtain ⟨ed_fs, _, _, _⟩ := lint_pydocstyle_spec env
    (lint_pycodestyle env (lint_pylint env fs project).1 project).1 project
  have hlint : (lint env fs project).1 =
      (lint_pydocstyle env (lint_pycodestyle env
        (lint_pylint env fs project).1 project).1 project).1 := by
    simp only [lint, herr1, herr2]
  have e1 := run_pylint_spec env fs [project.source_directory]
    (pathJoin project.reports_directory "pylint-report.log")
    (pathJoin project.root_directory ".pylintrc")
  rw [show pylintCmd (pathJoin project.root_directory ".pylintrc") [project.source_directory]
    (pathJoin project.reports_directory "pylint-report.log") = pylintSrcCmd project from rfl] at e1
  have herr1b : (run_pylint env fs [project.source_directory]
      (pathJoin project.reports_directory "pylint-report.log")
      (pathJoin project.root_directory ".pylintrc")).2.2 = none := by
    rw [e1.2.1, if_pos h1]
  have e2 := run_pylint_spec env (run_pylint env fs [project.source_directory]
      (pathJoin project.reports_directory "pylint-report.log")
      (pathJoin project.root_directory ".pylintrc")).1 [project.tests_directory]
    (pathJoin project.reports_directory "pylint-report-tests.log")
    (pathJoin project.tests_directory ".pylintrc")
  rw [show pylintCmd (pathJoin project.tests_directory ".pylintrc") [project.tests_directory]
    (pathJoin project.reports_directory "pylint-report-tests.log") = pylintTestsCmd project
    from rfl] at e2
  have hfs1 : (run_pylint env fs [project.source_directory]
      (pathJoin project.reports_directory "pylint-report.log")
      (pathJoin project.root_directory ".pylintrc")).1 =
      fs.write (pathJoin project.reports_directory "pylint-report.log") o1 := by
    rw [e1.1, ho1]
  have hp_fs : (lint_pylint env fs project).1 =
      (fs.write (pathJoin project.reports_directory "pylint-report.log") o1).write
        (pathJoin project.reports_directory "pylint-report-tests.log") o2 := by
    have hfs2 := e2.1
    rw [ho2] at hfs2
    simp only [lint_pylint, herr1b]
    rw [hfs2, hfs1]
  rw [hlint, ed_fs, ho4, ec_fs, ho3, hp_fs]

/-! ## The scanner against the leftmost-position specification -/

theorem totalMatchAt_shift (c : Char) (rest : List Char) (i : Nat) :
    totalMatchAt (c :: rest) (i + 1) = totalMatchAt rest i := by
  unfold totalMatchAt
  rw [List.drop_succ_cons, show i + 1 + 5 = (i + 5) + 1 from by omega, List.drop_succ_cons]

theorem totalMatchAt_zero (cs : List Char) :
    totalMatchAt cs 0 =
      if startsWithTOTAL cs then scanPercent (cs.drop 5) else none := by
  unfold totalMatchAt
  rw [List.drop_zero]

theorem leftmostTotal_cons (c : Char) (rest : List Char) :
    leftmostTotal (c :: rest) =
      ((totalMatchAt (c :: rest) 0).toList ++
        (List.range rest.length).filterMap (totalMatchAt rest)).head? := by
  unfold leftmostTotal
  rw [List.length_cons, List.range_succ_eq_map, List.filterMap_cons]
  cases h0 : totalMatchAt (c :: rest) 0 with
  | none =>
    simp only [Option.toList_none, List.nil_append, List.filterMap_map]
    congr 1
  | some g =>
    simp only [Option.toList_some, List.cons_append, List.filterMap_map]
    congr 2

theorem searchTOTAL_eq_leftmostTotal (cs : List Char) :
    searchTOTAL cs = leftmostTotal cs := by
  induction cs with
  | nil => rfl
  | cons c rest ih =>
    rw [searchTOTAL_cons, leftmostTotal_cons, totalMatchAt_zero]
    by_cases hst : startsWithTOTAL (c :: rest) = true
    · rw [if_pos hst, if_pos hst]
      cases hsp : scanPercent ((c :: rest).drop 5) with
      | some g => rfl
      | none =>
        simp only [Option.toList_none, List.nil_append]
        exact ih
    · rw [if_neg (by simpa using hst), if_neg (by simpa using hst)]
      simp only [Option.toList_none, List.nil_append]
      exact ih

/-! # The claims -/

/-- C1, counterexample: with every tool exiting zero, the pydocstyle check
still reads and format-prints its report file in its `finally` block and
never prints a success indicator — refuting "for every check, a zero exit
prints a success indicator and no dump" at this concrete input. -/
theorem c1_zero_exit_counterexample :
    envAllOk.exitCode (pydocstyleFullCmd project0) = 0 ∧
    (lint_pydocstyle envAllOk fs0 project0).2.2 = none ∧
    Event.successMark ∉ (lint_pydocstyle envAllOk fs0 project0).2.1 ∧
    Event.formatted (read_contents (lint_pydocstyle envAllOk fs0 project0).1
      (pathJoin project0.reports_directory "pydocstyle-report.log")) ∈
      (lint_pydocstyle envAllOk fs0 project0).2.1 := by
  decide

/-- C1, amended: only the pylint sub-runs behave as the claim says — zero
exit means no dump and a success mark; non-zero exit returns the typed
failure after printing the report (when the file exists) and prints
nothing when it is absent.  The pydocstyle and pycodestyle checks instead
format-print the report file whenever it exists, regardless of exit
status, never print a success indicator, and a non-zero exit still
propagates as the typed failure. -/
theorem c1_check_output_behavior (env : RunEnv) (fs : FS) (dirs : List String)
    (rp rc : String) (project : Project) :
    (env.exitCode (pylintCmd rc dirs rp) = 0 →
      (run_pylint env fs dirs rp rc).2.2 = none ∧
      Event.successMark ∈ (run_pylint env fs dirs rp rc).2.1 ∧
      (∀ s, Event.printed s ∉ (run_pylint env fs dirs rp rc).2.1)) ∧
    (env.exitCode (pylintCmd rc dirs rp) ≠ 0 →
      (run_pylint env fs dirs rp rc).2.2 =
        some ⟨pylintCmd rc dirs rp, env.exitCode (pylintCmd rc dirs rp)⟩ ∧
      Event.successMark ∉ (run_pylint env fs dirs rp rc).2.1 ∧
      ((run_pylint env fs dirs rp rc).1.existsFile rp = true →
        Event.printed (read_contents (run_pylint env fs dirs rp rc).1 rp) ∈
          (run_pylint env fs dirs rp rc).2.1) ∧
      ((run_pylint env fs dirs rp rc).1.existsFile rp = false →
        ∀ s, Event.printed s ∉ (run_pylint env fs dirs rp rc).2.1)) ∧
    Event.successMark ∉ (lint_pydocstyle env fs project).2.1 ∧
    ((lint_pydocstyle env fs project).1.existsFile
        (pathJoin project.reports_directory "pydocstyle-report.log") = true →
      Event.formatted (read_contents (lint_pydocstyle env fs project).1
        (pathJoin project.reports_directory "pydocstyle-report.log")) ∈
        (lint_pydocstyle env fs project).2.1) ∧
    ((lint_pydocstyle env fs project).2.2 = none ↔
      env.exitCode (pydocstyleFullCmd project) = 0) ∧
    Event.successMark ∉ (lint_pycodestyle env fs project).2.1 ∧
    ((lint_pycodestyle env fs project).1.existsFile
        (pathJoin project.reports_directory "pycodestyle-report.log") = true →
      Event.formatted (read_contents (lint_pycodestyle env fs project).1
        (pathJoin project.reports_directory "pycodestyle-report.log")) ∈
        (lint_pycodestyle env fs project).2.1) ∧
    ((lint_pycodestyle env fs project).2.2 = none ↔
      env.exitCode (pycodestyleFullCmd project) = 0) := by
  refine ⟨?_, ?_, (lint_pydocstyle_spec env fs project).2.2.2, ?_,
    (lint_pydocstyle_spec env fs project).2.1, (lint_pycodestyle_spec env fs project).2.2.2,
    ?_, (lint_pycodestyle_spec env fs project).2.1⟩
  · intro h
    refine ⟨?_, ?_, ?_⟩ <;> simp [run_pylint, runRedirect, h]
  · intro h
    have hval : run_pylint env fs dirs rp rc =
        ((match env.fileOutput (pylintCmd rc dirs rp) with
          | some out => fs.write rp out
          | none => fs),
         [Event.header (String.intercalate ", " dirs) 3, Event.run (pylintCmd rc dirs rp)] ++
           (if (match env.fileOutput (pylintCmd rc dirs rp) with
              | some out => fs.write rp out
              | none => fs).existsFile rp then
             [Event.printed (read_contents (match env.fileOutput (pylintCmd rc dirs rp) with
               | some out => fs.write rp out
               | none => fs) rp)] else []),
         some ⟨pylintCmd rc dirs rp, env.exitCode (pylintCmd rc dirs rp)⟩) := by
      simp only [run_pylint, runRedirect, if_neg h]
    rw [hval]
    refine ⟨rfl, ?_, ?_, ?_⟩
    · intro hmem
      rcases List.mem_append.mp hmem with hm | hm
      · simp at hm
      · revert hm
        split <;> simp
    · intro hex
      rw [if_pos hex]
      simp [List.mem_append]
    · intro hex s hmem
      rw [if_neg (by simp [hex])] at hmem
      simp at hmem
  · intro hex
    simp only [lint_pydocstyle] at hex ⊢
    rw [if_pos hex]
    simp [List.mem_append]
  · intro hex
    simp only [lint_pycodestyle] at hex ⊢
    rw [if_pos hex]
    simp [List.mem_append]

/-- C1 witness: the amended behaviour at a concrete success and the
concrete pydocstyle and pycodestyle dumps. -/
theorem c1_check_output_behavior_witness :
    (run_pylint envAllOk fs0 ["src"] "reports/pylint-report.log" "./.pylintrc").2.2 = none ∧
    Event.successMark ∈
      (run_pylint envAllOk fs0 ["src"] "reports/pylint-report.log" "./.pylintrc").2.1 ∧
    Event.formatted (read_contents (lint_pydocstyle envAllOk fs0 project0).1
      (pathJoin project0.reports_directory "pydocstyle-report.log")) ∈
      (lint_pydocstyle envAllOk fs0 project0).2.1 ∧
    Event.formatted (read_contents (lint_pycodestyle envAllOk fs0 project0).1
      (pathJoin project0.reports_directory "pycodestyle-report.log")) ∈
      (lint_pycodestyle envAllOk fs0 project0).2.1 :=
  ⟨((c1_check_output_behavior envAllOk fs0 ["src"] "reports/pylint-report.log" "./.pylintrc"
      project0).1 rfl).1,
   ((c1_check_output_behavior envAllOk fs0 ["src"] "reports/pylint-report.log" "./.pylintrc"
      project0).1 rfl).2.1,
   (c1_check_output_behavior envAllOk fs0 ["src"] "reports/pylint-report.log" "./.pylintrc"
      project0).2.2.2.1 (by decide),
   (c1_check_output_behavior envAllOk fs0 ["src"] "reports/pylint-report.log" "./.pylintrc"
      project0).2.2.2.2.2.2.1 (by decide)⟩

/-- C2, counterexample: when the first check (pylint on the source tree)
fails, the lint pipeline starts no further tool — the later checks never
run, refuting the claimed independence at this concrete input. -/
theorem c2_independence_counterexample :
    envPylintSrcFails.exitCode (pylintSrcCmd project0) ≠ 0 ∧
    (lint envPylintSrcFails fs0 project0).2.2.isSome = true ∧
    runCmds (lint envPylintSrcFails fs0 project0).2.1 = [pylintSrcCmd project0] ∧
    pycodestyleFullCmd project0 ∉ runCmds (lint envPylintSrcFails fs0 project0).2.1 ∧
    pydocstyleFullCmd project0 ∉ runCmds (lint envPylintSrcFails fs0 project0).2.1 := by
  decide

/-- C2, amended: the three checks are not independent.  The pipeline
invokes the tools in order and stops right after the first one that exits
non-zero; the checks after it are never started.  The pipeline's outcome
is a failure iff some attempted invocation exited non-zero — equivalently,
it succeeds iff all four tool invocations exit zero. -/
theorem c2_fail_fast (env : RunEnv) (fs : FS) (project : Project) :
    runCmds (lint env fs project).2.1 = lintFailFastCmds env project ∧
    ((lint env fs project).2.2 = none ↔
      (env.exitCode (pylintSrcCmd project) = 0 ∧ env.exitCode (pylintTestsCmd project) = 0 ∧
        env.exitCode (pycodestyleFullCmd project) = 0 ∧
        env.exitCode (pydocstyleFullCmd project) = 0)) :=
  lint_spec env fs project

/-- C2 witness: the fail-fast trace and the all-zero success case at
concrete inputs. -/
theorem c2_fail_fast_witness :
    runCmds (lint envPylintSrcFails fs0 project0).2.1 =
      lintFailFastCmds envPylintSrcFails project0 ∧
    (lint envAllOk fs0 project0).2.2 = none :=
  ⟨(c2_fail_fast envPylintSrcFails fs0 project0).1,
   (c2_fail_fast envAllOk fs0 project0).2.mpr ⟨rfl, rfl, rfl, rfl⟩⟩

/-- C3, counterexample: in a run where every tool succeeds, the first
command the pipeline starts is the pylint (static-analysis) invocation,
not the style check — refuting the claimed style-docstring-static order. -/
theorem c3_order_counterexample :
    (runCmds (lint envAllOk fs0 project0).2.1).head? = some (pylintSrcCmd project0) ∧
    pylintSrcCmd project0 ≠ pycodestyleFullCmd project0 ∧
    pylintSrcCmd project0 ≠ pydocstyleFullCmd project0 := by
  decide

/-- C3, amended: the lint pipeline runs its checks in the fixed order
static-analysis first (its source-tree sub-run, then its tests-tree
sub-run, each with its own rcfile), then the style check, then the
docstring check. -/
theorem c3_check_order (env : RunEnv) (fs : FS) (project : Project)
    (h1 : env.exitCode (pylintSrcCmd project) = 0)
    (h2 : env.exitCode (pylintTestsCmd project) = 0)
    (h3 : env.exitCode (pycodestyleFullCmd project) = 0)
    (_h4 : env.exitCode (pydocstyleFullCmd project) = 0) :
    runCmds (lint env fs project).2.1 =
      [pylintSrcCmd project, pylintTestsCmd project, pycodestyleFullCmd project,
        pydocstyleFullCmd project] := by
  rw [(lint_spec env fs project).1, lintFailFastCmds,
    if_neg (fun hc => hc h1), if_neg (fun hc => hc h2), if_neg (fun hc => hc h3)]

/-- C3 witness: the order at a concrete all-success run. -/
theorem c3_check_order_witness :
    runCmds (lint envAllOk fs0 project0).2.1 =
      [pylintSrcCmd project0, pylintTestsCmd project0, pycodestyleFullCmd project0,
        pydocstyleFullCmd project0] :=
  c3_check_order envAllOk fs0 project0 rfl rfl rfl rfl

/-- C4: the combined percentage printed by `coverage_report` is the
TOTAL-row extraction applied to the `coverage report` output of the single
combined data file merged from the present categories' artifacts; at the
concrete fixture (unit 80%, integration 60%, merged data reporting 72%)
the printed total is 72%, not the 70% arithmetic mean — the aggregator
performs no arithmetic on the per-category percentages. -/
theorem c4_combined_from_merged_data :
    (∀ (env : CoverageEnv) (fs : FS) (toolbox : Toolbox),
      copiesDisjoint toolbox.reports_directory toolbox.test_types →
      allPresentParse env fs toolbox.reports_directory toolbox.test_types →
      ∀ pct, searchTOTAL (env.reportOutput (combinedOf env fs toolbox)).toList = some pct →
        (coverage_report env fs toolbox).2.2 = none ∧
        Event.printed ("Total coverage: " ++ pct) ∈ (coverage_report env fs toolbox).2.1) ∧
    Event.printed "Unit test coverage: 80%" ∈
      (coverage_report envCoverage fsCoverage toolbox0).2.1 ∧
    Event.printed "Integration test coverage: 60%" ∈
      (coverage_report envCoverage fsCoverage toolbox0).2.1 ∧
    Event.printed "Total coverage: 72%" ∈
      (coverage_report envCoverage fsCoverage toolbox0).2.1 ∧
    Event.printed "Total coverage: 70%" ∉
      (coverage_report envCoverage fsCoverage toolbox0).2.1 := by
  constructor
  · intro env fs toolbox Hd Hp pct hs
    obtain ⟨fs3, hok, _, _, _⟩ := coverage_report_spec env fs toolbox Hd Hp
    rw [hok pct hs]
    exact ⟨rfl, by simp⟩
  · refine ⟨?_, ?_, ?_, ?_⟩ <;> decide

/-- C4 witness: the general statement discharged at the concrete fixture. -/
theorem c4_combined_from_merged_data_witness :
    (coverage_report envCoverage fsCoverage toolbox0).2.2 = none ∧
    Event.printed ("Total coverage: " ++ "72%") ∈
      (coverage_report envCoverage fsCoverage toolbox0).2.1 :=
  c4_combined_from_merged_data.1 envCoverage fsCoverage toolbox0
    (by decide) (by decide) "72%" (by decide)

/-- C5: the extraction raises exactly when the report output has no line
with `TOTAL` followed by a `[\d.]+%` token on the same line, and the raised
error carries the output rather than being defaulted; in particular the
output `Name   Stmts   Miss` raises. -/
theorem c5_parse_error_iff :
    (∀ (env : CoverageEnv) (fs : FS) (dat : String),
      (∃ msg, _get_total_coverage env fs dat = Except.error msg) ↔
        ¬ hasTotalPercent (env.reportOutput (read_contents fs dat)).toList) ∧
    _get_total_coverage envNoTotal fs0 "any.dat" =
      Except.error ("Regex failed on output: " ++ "Name   Stmts   Miss") := by
  constructor
  · intro env fs dat
    rw [← searchTOTAL_isSome_iff]
    simp only [_get_total_coverage]
    cases hs : searchTOTAL (env.reportOutput (read_contents fs dat)).toList with
    | none => simp [hs]
    | some g => simp [hs]
  · rfl

/-- C5 witness: the equivalence applied at the TOTAL-less fixture output. -/
theorem c5_parse_error_iff_witness :
    ¬ hasTotalPercent (envNoTotal.reportOutput (read_contents fs0 "any.dat")).toList :=
  (c5_parse_error_iff.1 envNoTotal fs0 "any.dat").mp ⟨_, rfl⟩

/-- C6: a category whose coverage artifact is absent is skipped with a
warning, the other categories are still processed (each present one gets
its percentage printed), and the run still reaches the combine command. -/
theorem c6_missing_category_skipped (env : CoverageEnv) (fs : FS) (toolbox : Toolbox)
    (Hd : copiesDisjoint toolbox.reports_directory toolbox.test_types)
    (Hp : allPresentParse env fs toolbox.reports_directory toolbox.test_types) :
    (∀ t ∈ toolbox.test_types,
      fs.existsFile (datPath toolbox.reports_directory t) = false →
      Event.warn (missingDatMsg t (datPath toolbox.reports_directory t)) ∈
        (coverage_report env fs toolbox).2.1) ∧
    (∀ t ∈ toolbox.test_types,
      fs.existsFile (datPath toolbox.reports_directory t) = true →
      ∃ pct, Event.printed (categoryCoverageMsg t pct) ∈ (coverage_report env fs toolbox).2.1) ∧
    Event.run (combineCmd (combinedPath toolbox.reports_directory)
      (pathJoin toolbox.reports_directory "coverage-report")
      ((presentTypes fs toolbox.reports_directory toolbox.test_types).map
        (copyPath toolbox.reports_directory))) ∈ (coverage_report env fs toolbox).2.1 := by
  obtain ⟨fs3, hok, herr, _, _⟩ := coverage_report_spec env fs toolbox Hd Hp
  have hbase : ∀ e, e ∈ [Event.header "Generating coverage report" 1] ++
      toolbox.test_types.map (categoryEvent env fs toolbox.reports_directory) ++
      [Event.run (combineCmd (combinedPath toolbox.reports_directory)
        (pathJoin toolbox.reports_directory "coverage-report")
        ((presentTypes fs toolbox.reports_directory toolbox.test_types).map
          (copyPath toolbox.reports_directory)))] →
      e ∈ (coverage_report env fs toolbox).2.1 := by
    intro e he
    cases hs : searchTOTAL (env.reportOutput (combinedOf env fs toolbox)).toList with
    | some pct =>
      rw [hok pct hs]
      exact List.mem_append_left _ he
    | none =>
      rw [herr hs]
      exact he
  refine ⟨?_, ?_, ?_⟩
  · intro t ht habs
    apply hbase
    apply List.mem_append_left
    apply List.mem_append_right
    have hcat : categoryEvent env fs toolbox.reports_directory t =
        Event.warn (missingDatMsg t (datPath toolbox.reports_directory t)) := by
      unfold categoryEvent
      rw [if_neg (by simp [habs])]
    rw [← hcat]
    exact List.mem_map_of_mem _ ht
  · intro t ht hpres
    refine ⟨(searchTOTAL (env.reportOutput
      (read_contents fs (datPath toolbox.reports_directory t))).toList).getD "", ?_⟩
    apply hbase
    apply List.mem_append_left
    apply List.mem_append_right
    have hcat : categoryEvent env fs toolbox.reports_directory t =
        Event.printed (categoryCoverageMsg t ((searchTOTAL (env.reportOutput
          (read_contents fs (datPath toolbox.reports_directory t))).toList).getD "")) := by
      unfold categoryEvent
      rw [if_pos hpres]
    rw [← hcat]
    exact List.mem_map_of_mem _ ht
  · apply hbase
    apply List.mem_append_right
    simp

/-- C6 witness: with only the unit artifact on disk, the integration
category is warned about and the combine command still runs. -/
theorem c6_missing_category_skipped_witness :
    Event.warn (missingDatMsg "integration" (datPath "reports" "integration")) ∈
      (coverage_report envCoverage fsOnlyUnit toolbox0).2.1 :=
  (c6_missing_category_skipped envCoverage fsOnlyUnit toolbox0 (by decide) (by decide)).1
    "integration" (by decide) (by decide)

/-- C7: the combine command is passed exactly the temporary `-copy.dat`
duplicates (each distinct from its original artifact), and after the whole
aggregation every per-category artifact still has its original contents
and existence — the combination consumes only the copies. -/
theorem c7_originals_preserved (env : CoverageEnv) (fs : FS) (toolbox : Toolbox)
    (Hd : copiesDisjoint toolbox.reports_directory toolbox.test_types)
    (Hp : allPresentParse env fs toolbox.reports_directory toolbox.test_types)
    (Hc : ∀ t ∈ toolbox.test_types,
      datPath toolbox.reports_directory t ≠ combinedPath toolbox.reports_directory ∧
      datPath toolbox.reports_directory t ≠ htmlIndexPath toolbox.reports_directory) :
    (∀ t ∈ toolbox.test_types,
      copyPath toolbox.reports_directory t ≠ datPath toolbox.reports_directory t) ∧
    Event.run (combineCmd (combinedPath toolbox.reports_directory)
      (pathJoin toolbox.reports_directory "coverage-report")
      ((presentTypes fs toolbox.reports_directory toolbox.test_types).map
        (copyPath toolbox.reports_directory))) ∈ (coverage_report env fs toolbox).2.1 ∧
    (∀ t ∈ toolbox.test_types,
      (coverage_report env fs toolbox).1.read? (datPath toolbox.reports_directory t) =
        fs.read? (datPath toolbox.reports_directory t)) := by
  obtain ⟨fs3, hok, herr, hcomb, hframe⟩ := coverage_report_spec env fs toolbox Hd Hp
  refine ⟨fun t ht => Hd.1 t ht t ht, ?_, ?_⟩
  · cases hs : searchTOTAL (env.reportOutput (combinedOf env fs toolbox)).toList with
    | some pct =>
      rw [hok pct hs]
      simp
    | none =>
      rw [herr hs]
      simp
  · intro t ht
    have hfs3 : (coverage_report env fs toolbox).1 = fs3 := by
      cases hs : searchTOTAL (env.reportOutput (combinedOf env fs toolbox)).toList with
      | some pct => rw [hok pct hs]
      | none => rw [herr hs]
    rw [hfs3]
    refine hframe _ (Hc t ht).2 (Hc t ht).1 ?_
    intro t2 h2
    exact fun he => Hd.1 t2 (mem_of_presentTypes h2).1 t ht he.symm

/-- C7 witness: at the concrete fixture the unit artifact is untouched by
the aggregation. -/
theorem c7_originals_preserved_witness :
    (coverage_report envCoverage fsCoverage toolbox0).1.read?
      (datPath "reports" "unit") = fsCoverage.read? (datPath "reports" "unit") :=
  (c7_originals_preserved envCoverage fsCoverage toolbox0
    (by decide) (by decide) (by decide)).2.2 "unit" (by decide)

/-- C8: with no combined report index on disk, `coverage_open` prints the
guidance message and raises exit code 1 without ever opening a browser;
the browser is opened only when the index file exists. -/
theorem c8_coverage_open_guard (fs : FS) (toolbox : Toolbox) :
    (fs.existsFile (htmlIndexPath toolbox.reports_directory) = false →
      (coverage_open fs toolbox).2 = some 1 ∧
      (∀ u, Event.openBrowser u ∉ (coverage_open fs toolbox).1) ∧
      ∃ msg, Event.guidance msg ∈ (coverage_open fs toolbox).1) ∧
    (∀ u, Event.openBrowser u ∈ (coverage_open fs toolbox).1 →
      fs.existsFile (htmlIndexPath toolbox.reports_directory) = true) := by
  by_cases h : fs.existsFile (htmlIndexPath toolbox.reports_directory) = true
  · constructor
    · intro hfalse
      rw [hfalse] at h
      cases h
    · intro u _
      exact h
  · have hb : fs.existsFile (htmlIndexPath toolbox.reports_directory) = false := by
      simpa using h
    constructor
    · intro _
      refine ⟨?_, ?_, ?_⟩
      · simp [coverage_open, hb]
      · intro u
        simp [coverage_open, hb]
      · refine ⟨"Could not find coverage report " ++ htmlIndexPath toolbox.reports_directory ++
          ". Ensure that the report has been built. Try one of the following: " ++
          "pipenv run inv coverage-report, or pipenv run inv test-all", ?_⟩
        simp [coverage_open, hb]
    · intro u hu
      simp [coverage_open, hb] at hu

/-- C8 witness: on an empty file system, the command exits 1 and opens
nothing. -/
theorem c8_coverage_open_guard_witness :
    (coverage_open fs0 toolbox0).2 = some 1 ∧
    (∀ u, Event.openBrowser u ∉ (coverage_open fs0 toolbox0).1) :=
  ⟨((c8_coverage_open_guard fs0 toolbox0).1 (by decide)).1,
   ((c8_coverage_open_guard fs0 toolbox0).1 (by decide)).2.1⟩

theorem read?_four_writes (fs : FS) (q1 q2 q3 q4 o1 o2 o3 o4 p : String) :
    ((((fs.write q1 o1).write q2 o2).write q3 o3).write q4 o4).read? p =
      (if p = q4 then some o4 else if p = q3 then some o3 else if p = q2 then some o2
       else if p = q1 then some o1 else fs.read? p) := by
  rw [FS.read?_write_cases, FS.read?_write_cases, FS.read?_write_cases, FS.read?_write_cases]

/-- C9, counterexample: a successful lint run creates
`pydocstyle-report.log` and `pycodestyle-report.log`, and none of the
claimed `style-report.log`, `docstring-report.log`, `lint-report.log`,
`lint-tests-report.log` names exist. -/
theorem c9_paths_counterexample :
    (lint envAllOk fs0 project0).1.existsFile
      (pathJoin "reports" "pydocstyle-report.log") = true ∧
    (lint envAllOk fs0 project0).1.existsFile
      (pathJoin "reports" "pycodestyle-report.log") = true ∧
    (lint envAllOk fs0 project0).1.existsFile
      (pathJoin "reports" "docstring-report.log") = false ∧
    (lint envAllOk fs0 project0).1.existsFile
      (pathJoin "reports" "style-report.log") = false ∧
    (lint envAllOk fs0 project0).1.existsFile
      (pathJoin "reports" "lint-report.log") = false ∧
    (lint envAllOk fs0 project0).1.existsFile
      (pathJoin "reports" "lint-tests-report.log") = false := by
  decide

/-- C9, amended: the files a successful lint run produces under the
reports directory are exactly `pylint-report.log`,
`pylint-report-tests.log`, `pycodestyle-report.log` and
`pydocstyle-report.log`; the names are deterministic, so a repeated run
overwrites them and leaves the file system unchanged.  The coverage side
uses `coverage-<category>.dat` per category, temporary copies
`coverage-<category>-copy.dat`, the combined `coverage.dat`, and
`coverage-report/index.html`. -/
theorem c9_report_paths (env : RunEnv) (fs : FS) (project : Project)
    (hz : ∀ c, env.exitCode c = 0) (ho : ∀ c, ∃ o, env.fileOutput c = some o) :
    (∀ p, (lint env fs project).1.existsFile p =
      (fs.existsFile p || decide (p ∈ lintReportPaths project))) ∧
    (∀ p, (lint env (lint env fs project).1 project).1.read? p =
      (lint env fs project).1.read? p) ∧
    (∀ r t, datPath r t = pathJoin r ("coverage-" ++ t ++ ".dat")) ∧
    (∀ r, combinedPath r = pathJoin r "coverage.dat") ∧
    (∀ r, htmlIndexPath r = pathJoin (pathJoin r "coverage-report") "index.html") ∧
    copyName "unit" = "coverage-unit-copy.dat" ∧
    copyName "integration" = "coverage-integration-copy.dat" := by
  obtain ⟨o1, ho1⟩ := ho (pylintSrcCmd project)
  obtain ⟨o2, ho2⟩ := ho (pylintTestsCmd project)
  obtain ⟨o3, ho3⟩ := ho (pycodestyleFullCmd project)
  obtain ⟨o4, ho4⟩ := ho (pydocstyleFullCmd project)
  have hfs := lint_fs_all_ok env fs project (hz _) (hz _) (hz _) o1 o2 o3 o4 ho1 ho2 ho3 ho4
  have hfs2 := lint_fs_all_ok env (lint env fs project).1 project (hz _) (hz _) (hz _)
    o1 o2 o3 o4 ho1 ho2 ho3 ho4
  have n12 : pathJoin project.reports_directory "pylint-report.log" ≠
      pathJoin project.reports_directory "pylint-report-tests.log" :=
    pathJoin_ne_of_ne (by decide)
  have n13 : pathJoin project.reports_directory "pylint-report.log" ≠
      pathJoin project.reports_directory "pycodestyle-report.log" :=
    pathJoin_ne_of_ne (by decide)
  have n14 : pathJoin project.reports_directory "pylint-report.log" ≠
      pathJoin project.reports_directory "pydocstyle-report.log" :=
    pathJoin_ne_of_ne (by decide)
  have n23 : pathJoin project.reports_directory "pylint-report-tests.log" ≠
      pathJoin project.reports_directory "pycodestyle-report.log" :=
    pathJoin_ne_of_ne (by decide)
  have n24 : pathJoin project.reports_directory "pylint-report-tests.log" ≠
      pathJoin project.reports_directory "pydocstyle-report.log" :=
    pathJoin_ne_of_ne (by decide)
  have n34 : pathJoin project.reports_directory "pycodestyle-report.log" ≠
      pathJoin project.reports_directory "pydocstyle-report.log" :=
    pathJoin_ne_of_ne (by decide)
  refine ⟨?_, ?_, fun r t => rfl, fun r => rfl, fun r => rfl, by decide, by decide⟩
  · intro p
    by_cases e1 : p = pathJoin project.reports_directory "pylint-report.log" <;>
    by_cases e2 : p = pathJoin project.reports_directory "pylint-report-tests.log" <;>
    by_cases e3 : p = pathJoin project.reports_directory "pycodestyle-report.log" <;>
    by_cases e4 : p = pathJoin project.reports_directory "pydocstyle-report.log" <;>
      simp [FS.existsFile, hfs, read?_four_writes, lintReportPaths, e1, e2, e3, e4,
        n12, n13, n14, n23, n24, n34, n12.symm, n13.symm, n14.symm, n23.symm,
        n24.symm, n34.symm]
  · intro p
    rw [hfs2, hfs]
    simp only [read?_four_writes]
    split_ifs <;> rfl

/-- C9 witness: at a concrete all-success run the four report files exist
and repetition changes nothing. -/
theorem c9_report_paths_witness :
    (lint envAllOk fs0 project0).1.existsFile (pathJoin "reports" "pydocstyle-report.log") =
      (fs0.existsFile (pathJoin "reports" "pydocstyle-report.log") ||
        decide (pathJoin "reports" "pydocstyle-report.log" ∈ lintReportPaths project0)) ∧
    (lint envAllOk (lint envAllOk fs0 project0).1 project0).1.read?
        (pathJoin "reports" "pylint-report.log") =
      (lint envAllOk fs0 project0).1.read? (pathJoin "reports" "pylint-report.log") :=
  ⟨(c9_report_paths envAllOk fs0 project0 (fun _ => rfl) (fun _ => ⟨"", rfl⟩)).1
    (pathJoin "reports" "pydocstyle-report.log"),
   (c9_report_paths envAllOk fs0 project0 (fun _ => rfl) (fun _ => ⟨"", rfl⟩)).2.1
    (pathJoin "reports" "pylint-report.log")⟩

/-- C10, counterexample: on the output `TOTAL\nTOTAL 80%` the first TOTAL
row has no percentage token on its line, yet the extraction returns the
later row's `80%` — refuting "the leftmost token after the first
occurrence of TOTAL on the same line". -/
theorem c10_first_total_counterexample :
    searchTOTAL "TOTAL\nTOTAL 80%".toList = some "80%" ∧
    firstTotalScan "TOTAL\nTOTAL 80%".toList = none := by
  decide

/-- C10, amended: the extraction is deterministic and equals the
leftmost-position specification — the match comes from the earliest
position where `TOTAL` starts and is followed by a `[\d.]+%` token on the
same line; TOTAL rows without a token are passed over.  When several TOTAL
rows carry a token, the earliest one wins. -/
theorem c10_leftmost_total :
    (∀ cs, searchTOTAL cs = leftmostTotal cs) ∧
    searchTOTAL "TOTAL 10%\nTOTAL 20%".toList = some "10%" :=
  ⟨searchTOTAL_eq_leftmostTotal, by decide⟩

end Delfino
